import Mathlib

/-!
Verification of the aggregation engine of `rust-code-analysis-tui`.

The Rust source (`src/metrics.rs`, `src/analysis.rs`) is shallowly embedded:
`f64` is modelled as `ℚ` (exact arithmetic; the spec's "epsilon-equal" is
exact equality here), `usize` as `ℕ`, Rust `Option<f64>` as `Option ℚ`.
`f64::MAX` / `f64::MIN` become the exact rational values of those IEEE
doubles.  File-system effects of `analyze_directory` are abstracted into an
explicit record of read results.
-/

set_option maxHeartbeats 1000000

/-- Exact rational value of `f64::MAX` (= (2 - 2⁻⁵²)·2¹⁰²³). -/
def f64_MAX : ℚ := 2 ^ 1024 - 2 ^ 971

/-- Exact rational value of `f64::MIN` (= `-f64::MAX` in IEEE 754). -/
def f64_MIN : ℚ := -f64_MAX

/-! ## Data model (`src/metrics.rs`) -/

/-- `MetricValues` from `src/metrics.rs` (the `nargs` category record). -/
structure MetricValues where
  total_functions : Option ℚ
  total_closures : Option ℚ
  average_functions : Option ℚ
  average_closures : Option ℚ
  total : Option ℚ
  average : Option ℚ
  functions_min : Option ℚ
  functions_max : Option ℚ
  closures_min : Option ℚ
  closures_max : Option ℚ
  deriving DecidableEq

/-- `BasicMetric` from `src/metrics.rs` (nexits / cognitive / cyclomatic). -/
structure BasicMetric where
  sum : Option ℚ
  average : Option ℚ
  min : Option ℚ
  max : Option ℚ
  deriving DecidableEq

/-- `Halstead` from `src/metrics.rs`; `n1_upper`/`n2_upper` are the serde
renames of the JSON keys `N1`/`N2`. -/
structure Halstead where
  n1 : Option ℚ
  n1_upper : Option ℚ
  n2 : Option ℚ
  n2_upper : Option ℚ
  length : Option ℚ
  estimated_program_length : Option ℚ
  purity_ratio : Option ℚ
  vocabulary : Option ℚ
  volume : Option ℚ
  difficulty : Option ℚ
  level : Option ℚ
  effort : Option ℚ
  time : Option ℚ
  bugs : Option ℚ
  deriving DecidableEq

/-- `Loc` from `src/metrics.rs`. -/
structure Loc where
  sloc : Option ℚ
  ploc : Option ℚ
  lloc : Option ℚ
  cloc : Option ℚ
  blank : Option ℚ
  sloc_average : Option ℚ
  ploc_average : Option ℚ
  lloc_average : Option ℚ
  cloc_average : Option ℚ
  blank_average : Option ℚ
  sloc_min : Option ℚ
  sloc_max : Option ℚ
  cloc_min : Option ℚ
  cloc_max : Option ℚ
  ploc_min : Option ℚ
  ploc_max : Option ℚ
  lloc_min : Option ℚ
  lloc_max : Option ℚ
  blank_min : Option ℚ
  blank_max : Option ℚ
  deriving DecidableEq

/-- `Nom` from `src/metrics.rs`. -/
structure Nom where
  functions : Option ℚ
  closures : Option ℚ
  functions_average : Option ℚ
  closures_average : Option ℚ
  total : Option ℚ
  average : Option ℚ
  functions_min : Option ℚ
  functions_max : Option ℚ
  closures_min : Option ℚ
  closures_max : Option ℚ
  deriving DecidableEq

/-- `Mi` from `src/metrics.rs`. -/
structure Mi where
  mi_original : Option ℚ
  mi_sei : Option ℚ
  mi_visual_studio : Option ℚ
  deriving DecidableEq

/-- `Abc` from `src/metrics.rs`. -/
structure Abc where
  assignments : Option ℚ
  branches : Option ℚ
  conditions : Option ℚ
  magnitude : Option ℚ
  assignments_average : Option ℚ
  branches_average : Option ℚ
  conditions_average : Option ℚ
  assignments_min : Option ℚ
  assignments_max : Option ℚ
  branches_min : Option ℚ
  branches_max : Option ℚ
  conditions_min : Option ℚ
  conditions_max : Option ℚ
  deriving DecidableEq

/-- `Wmc` from `src/metrics.rs`. -/
structure Wmc where
  classes : Option ℚ
  interfaces : Option ℚ
  total : Option ℚ
  deriving DecidableEq

/-- `Npm` from `src/metrics.rs` (the doubled `Option` on the averages
mirrors `Option<Option<f64>>` in the Rust source). -/
structure Npm where
  classes : Option ℚ
  interfaces : Option ℚ
  class_methods : Option ℚ
  interface_methods : Option ℚ
  classes_average : Option (Option ℚ)
  interfaces_average : Option (Option ℚ)
  total : Option ℚ
  total_methods : Option ℚ
  average : Option ℚ
  deriving DecidableEq

/-- `Npa` from `src/metrics.rs`. -/
structure Npa where
  classes : Option ℚ
  interfaces : Option ℚ
  class_attributes : Option ℚ
  interface_attributes : Option ℚ
  classes_average : Option (Option ℚ)
  interfaces_average : Option (Option ℚ)
  total : Option ℚ
  total_attributes : Option ℚ
  average : Option ℚ
  deriving DecidableEq

/-- `Metrics` from `src/metrics.rs`: twelve independently optional
category records (including `wmc`/`npm`/`npa`, which are decoded but not
summarized). -/
structure Metrics where
  nargs : Option MetricValues
  nexits : Option BasicMetric
  cognitive : Option BasicMetric
  cyclomatic : Option BasicMetric
  halstead : Option Halstead
  loc : Option Loc
  nom : Option Nom
  mi : Option Mi
  abc : Option Abc
  wmc : Option Wmc
  npm : Option Npm
  npa : Option Npa
  deriving DecidableEq

/-- `Space` from `src/metrics.rs`: the recursive tree of nested code
spaces.  Summarization never descends into it. -/
inductive Space where
  | mk (name : String) (start_line end_line : ℕ) (kind : String)
      (spaces : List Space) (metrics : Option Metrics)

/-- `JsonData` from `src/metrics.rs`: the root node of one parsed report. -/
structure JsonData where
  name : String
  start_line : ℕ
  end_line : ℕ
  kind : String
  spaces : List Space
  metrics : Option Metrics

/-! ## Summary accumulators (`src/analysis.rs`) -/

/-- `MetricValuesSummary` from `src/analysis.rs` (nargs accumulator). -/
structure MetricValuesSummary where
  total_functions : Option ℚ
  total_closures : Option ℚ
  average_functions : Option ℚ
  average_closures : Option ℚ
  total : Option ℚ
  average : Option ℚ
  functions_min : Option ℚ
  functions_max : Option ℚ
  closures_min : Option ℚ
  closures_max : Option ℚ
  count : ℕ
  deriving DecidableEq

/-- Rust `Default` for `MetricValuesSummary`: every field `None`, count 0. -/
def MetricValuesSummary.default : MetricValuesSummary :=
  ⟨none, none, none, none, none, none, none, none, none, none, 0⟩

/-- `BasicSummary` from `src/analysis.rs`; its `Default` zero-initializes
`min` and `max` to `0.0`. -/
structure BasicSummary where
  sum : ℚ
  average : ℚ
  min : ℚ
  max : ℚ
  count : ℕ
  deriving DecidableEq

/-- Rust `Default` for `BasicSummary`: all-zero fields. -/
def BasicSummary.default : BasicSummary := ⟨0, 0, 0, 0, 0⟩

/-- `HalsteadSummary` from `src/analysis.rs` (field `estimated_program_lenght`
spelled as in the source). -/
structure HalsteadSummary where
  n1 : ℚ
  n2 : ℚ
  volume : ℚ
  purity_ratio : ℚ
  bugs : ℚ
  difficulty : ℚ
  estimated_program_lenght : ℚ
  vocabulary : ℚ
  level : ℚ
  count : ℕ
  deriving DecidableEq

/-- Rust `Default` for `HalsteadSummary`. -/
def HalsteadSummary.default : HalsteadSummary := ⟨0, 0, 0, 0, 0, 0, 0, 0, 0, 0⟩

/-- `LocSummary` from `src/analysis.rs`. -/
structure LocSummary where
  sloc : ℚ
  ploc : ℚ
  count : ℕ
  lloc : ℚ
  cloc : ℚ
  blank : ℚ
  sloc_average : ℚ
  ploc_average : ℚ
  lloc_average : ℚ
  cloc_average : ℚ
  blank_average : ℚ
  sloc_min : ℚ
  sloc_max : ℚ
  cloc_min : ℚ
  cloc_max : ℚ
  ploc_min : ℚ
  ploc_max : ℚ
  lloc_min : ℚ
  lloc_max : ℚ
  blank_min : ℚ
  blank_max : ℚ
  deriving DecidableEq

/-- Rust `Default` for `LocSummary`. -/
def LocSummary.default : LocSummary :=
  ⟨0, 0, 0, 0, 0, 0, 0, 0, 0, 0, 0, 0, 0, 0, 0, 0, 0, 0, 0, 0, 0⟩

/-- `NomSummary` from `src/analysis.rs`. -/
structure NomSummary where
  functions : ℚ
  closures : ℚ
  total : ℚ
  count : ℕ
  deriving DecidableEq

/-- Rust `Default` for `NomSummary`. -/
def NomSummary.default : NomSummary := ⟨0, 0, 0, 0⟩

/-- `MiSummary` from `src/analysis.rs`. -/
structure MiSummary where
  mi_original : ℚ
  mi_sei : ℚ
  mi_visual_studio : ℚ
  count : ℕ
  deriving DecidableEq

/-- Rust `Default` for `MiSummary`. -/
def MiSummary.default : MiSummary := ⟨0, 0, 0, 0⟩

/-- `AbcSummary` from `src/analysis.rs`. -/
structure AbcSummary where
  assignments : ℚ
  branches : ℚ
  conditions : ℚ
  count : ℕ
  deriving DecidableEq

/-- Rust `Default` for `AbcSummary`. -/
def AbcSummary.default : AbcSummary := ⟨0, 0, 0, 0⟩

/-- `WmcSummary` from `src/analysis.rs` (defined but never used by
`MetricsSummary::summarize`). -/
structure WmcSummary where
  classes : ℚ
  interfaces : ℚ
  total : ℚ
  count : ℕ
  deriving DecidableEq

/-- `NpmSummary` from `src/analysis.rs` (unused by `summarize`). -/
structure NpmSummary where
  classes : ℚ
  interfaces : ℚ
  class_methods : ℚ
  total : ℚ
  count : ℕ
  deriving DecidableEq

/-- `NpaSummary` from `src/analysis.rs` (unused by `summarize`). -/
structure NpaSummary where
  classes : ℚ
  interfaces : ℚ
  total : ℚ
  count : ℕ
  deriving DecidableEq

/-- `MetricsSummary` from `src/analysis.rs`: accumulators for exactly the
nine displayed categories. -/
structure MetricsSummary where
  nargs : Option MetricValuesSummary
  nexits : Option BasicSummary
  cognitive : Option BasicSummary
  cyclomatic : Option BasicSummary
  halstead : Option HalsteadSummary
  loc : Option LocSummary
  nom : Option NomSummary
  mi : Option MiSummary
  abc : Option AbcSummary
  deriving DecidableEq

/-- Rust `Default` for `MetricsSummary`: every category absent. -/
def MetricsSummary.default : MetricsSummary :=
  ⟨none, none, none, none, none, none, none, none, none⟩

/-! ## Merging (`src/analysis.rs`) -/

/-- `update_average` from `src/analysis.rs`:
`((old.unwrap_or(0.0) * count as f64) + new.unwrap_or(0.0)) / (count as f64 + 1.0)`. -/
def update_average (old : Option ℚ) (count : ℕ) (new : Option ℚ) : Option ℚ :=
  some ((old.getD 0 * (count : ℚ) + new.getD 0) / ((count : ℚ) + 1))

/-- `merge_with` from `src/analysis.rs`: if the metric is present, update
(starting from the `Default` accumulator if none exists yet) and bump the
count; otherwise return the current accumulator unchanged.  The Rust
`T: Default` bound and the `Countable::add_count` call are passed
explicitly. -/
def merge_with {T M : Type} (dflt : T) (add_count : T → T) (updater : T → M → T)
    (current : Option T) (metric : Option M) : Option T :=
  match metric with
  | some m => some (add_count (updater (current.getD dflt) m))
  | none => current

/-- `Countable::add_count` for `MetricValuesSummary`. -/
def MetricValuesSummary.add_count (s : MetricValuesSummary) : MetricValuesSummary :=
  { s with count := s.count + 1 }

/-- The updater closure of `impl Merge for MetricValuesSummary`. -/
def MetricValuesSummary.update (s : MetricValuesSummary) (m : MetricValues) :
    MetricValuesSummary :=
  { s with
    total_functions := some (s.total_functions.getD 0 + m.total_functions.getD 0)
    total_closures := some (s.total_closures.getD 0 + m.total_closures.getD 0)
    total := some (s.total.getD 0 + m.total.getD 0)
    average_functions := update_average s.average_functions s.count m.average_functions
    average_closures := update_average s.average_closures s.count m.average_closures
    average := update_average s.average s.count m.average
    functions_min := some (Min.min (s.functions_min.getD f64_MAX) (m.functions_min.getD f64_MAX))
    functions_max := some (Max.max (s.functions_max.getD f64_MIN) (m.functions_max.getD f64_MIN))
    closures_min := some (Min.min (s.closures_min.getD f64_MAX) (m.closures_min.getD f64_MAX))
    closures_max := some (Max.max (s.closures_max.getD f64_MIN) (m.closures_max.getD f64_MIN)) }

/-- `MetricValuesSummary::merge` (`impl Merge for MetricValuesSummary`). -/
def MetricValuesSummary.merge (current : Option MetricValuesSummary)
    (metric : Option MetricValues) : Option MetricValuesSummary :=
  merge_with MetricValuesSummary.default MetricValuesSummary.add_count
    MetricValuesSummary.update current metric

/-- `Countable::add_count` for `BasicSummary`. -/
def BasicSummary.add_count (s : BasicSummary) : BasicSummary :=
  { s with count := s.count + 1 }

/-- The updater closure of `impl Merge for BasicSummary`.  Note: `average`
is accumulated with `+=` (a sum of per-file averages, not a running mean),
and `min`/`max` fold against the zero-initialized accumulator fields. -/
def BasicSummary.update (s : BasicSummary) (m : BasicMetric) : BasicSummary :=
  { s with
    sum := s.sum + m.sum.getD 0
    average := s.average + m.average.getD 0
    min := Min.min s.min (m.min.getD f64_MAX)
    max := Max.max s.max (m.max.getD f64_MIN) }

/-- `BasicSummary::merge` (`impl Merge for BasicSummary`). -/
def BasicSummary.merge (current : Option BasicSummary) (metric : Option BasicMetric) :
    Option BasicSummary :=
  merge_with BasicSummary.default BasicSummary.add_count BasicSummary.update current metric

/-- `Countable::add_count` for `HalsteadSummary`. -/
def HalsteadSummary.add_count (s : HalsteadSummary) : HalsteadSummary :=
  { s with count := s.count + 1 }

/-- The updater closure of `impl Merge for HalsteadSummary`. -/
def HalsteadSummary.update (s : HalsteadSummary) (m : Halstead) : HalsteadSummary :=
  { s with
    n1 := s.n1 + m.n1.getD 0
    n2 := s.n2 + m.n2.getD 0
    volume := s.volume + m.volume.getD 0
    bugs := s.bugs + m.bugs.getD 0
    difficulty := s.difficulty + m.difficulty.getD 0
    estimated_program_lenght := s.estimated_program_lenght + m.estimated_program_length.getD 0
    vocabulary := s.vocabulary + m.vocabulary.getD 0
    level := s.level + m.level.getD 0
    purity_ratio := s.purity_ratio + m.purity_ratio.getD 0 }

/-- `HalsteadSummary::merge` (`impl Merge for HalsteadSummary`). -/
def HalsteadSummary.merge (current : Option HalsteadSummary) (metric : Option Halstead) :
    Option HalsteadSummary :=
  merge_with HalsteadSummary.default HalsteadSummary.add_count HalsteadSummary.update
    current metric

/-- `Countable::add_count` for `LocSummary`. -/
def LocSummary.add_count (s : LocSummary) : LocSummary :=
  { s with count := s.count + 1 }

/-- The updater closure of `impl Merge for LocSummary`.  Faithful to the
source: the `lloc`, `cloc` and `blank` totals are never updated; the min
fields use a zero-as-unset sentinel and treat an absent per-file min as
`0.0`; the max fields fold against the zero-initialized accumulator. -/
def LocSummary.update (s : LocSummary) (m : Loc) : LocSummary :=
  { s with
    sloc := s.sloc + m.sloc.getD 0
    ploc := s.ploc + m.ploc.getD 0
    sloc_average := s.sloc_average + m.sloc_average.getD 0
    ploc_average := s.ploc_average + m.ploc_average.getD 0
    lloc_average := s.lloc_average + m.lloc_average.getD 0
    cloc_average := s.cloc_average + m.cloc_average.getD 0
    blank_average := s.blank_average + m.blank_average.getD 0
    sloc_min := if s.sloc_min = 0 then m.sloc_min.getD 0
      else Min.min s.sloc_min (m.sloc_min.getD 0)
    ploc_min := if s.ploc_min = 0 then m.ploc_min.getD 0
      else Min.min s.ploc_min (m.ploc_min.getD 0)
    lloc_min := if s.lloc_min = 0 then m.lloc_min.getD 0
      else Min.min s.lloc_min (m.lloc_min.getD 0)
    cloc_min := if s.cloc_min = 0 then m.cloc_min.getD 0
      else Min.min s.cloc_min (m.cloc_min.getD 0)
    blank_min := if s.blank_min = 0 then m.blank_min.getD 0
      else Min.min s.blank_min (m.blank_min.getD 0)
    sloc_max := Max.max s.sloc_max (m.sloc_max.getD 0)
    ploc_max := Max.max s.ploc_max (m.ploc_max.getD 0)
    lloc_max := Max.max s.lloc_max (m.lloc_max.getD 0)
    cloc_max := Max.max s.cloc_max (m.cloc_max.getD 0)
    blank_max := Max.max s.blank_max (m.blank_max.getD 0) }

/-- `LocSummary::merge` (`impl Merge for LocSummary`). -/
def LocSummary.merge (current : Option LocSummary) (metric : Option Loc) :
    Option LocSummary :=
  merge_with LocSummary.default LocSummary.add_count LocSummary.update current metric

/-- `Countable::add_count` for `NomSummary`. -/
def NomSummary.add_count (s : NomSummary) : NomSummary :=
  { s with count := s.count + 1 }

/-- The updater closure of `impl Merge for NomSummary`. -/
def NomSummary.update (s : NomSummary) (m : Nom) : NomSummary :=
  { s with
    functions := s.functions + m.functions.getD 0
    closures := s.closures + m.closures.getD 0
    total := s.total + m.total.getD 0 }

/-- `NomSummary::merge` (`impl Merge for NomSummary`). -/
def NomSummary.merge (current : Option NomSummary) (metric : Option Nom) :
    Option NomSummary :=
  merge_with NomSummary.default NomSummary.add_count NomSummary.update current metric

/-- `Countable::add_count` for `MiSummary`. -/
def MiSummary.add_count (s : MiSummary) : MiSummary :=
  { s with count := s.count + 1 }

/-- The updater closure of `impl Merge for MiSummary`. -/
def MiSummary.update (s : MiSummary) (m : Mi) : MiSummary :=
  { s with
    mi_original := s.mi_original + m.mi_original.getD 0
    mi_sei := s.mi_sei + m.mi_sei.getD 0
    mi_visual_studio := s.mi_visual_studio + m.mi_visual_studio.getD 0 }

/-- `MiSummary::merge` (`impl Merge for MiSummary`). -/
def MiSummary.merge (current : Option MiSummary) (metric : Option Mi) :
    Option MiSummary :=
  merge_with MiSummary.default MiSummary.add_count MiSummary.update current metric

/-- `Countable::add_count` for `AbcSummary`. -/
def AbcSummary.add_count (s : AbcSummary) : AbcSummary :=
  { s with count := s.count + 1 }

/-- The updater closure of `impl Merge for AbcSummary`. -/
def AbcSummary.update (s : AbcSummary) (m : Abc) : AbcSummary :=
  { s with
    assignments := s.assignments + m.assignments.getD 0
    branches := s.branches + m.branches.getD 0
    conditions := s.conditions + m.conditions.getD 0 }

/-- `AbcSummary::merge` (`impl Merge for AbcSummary`). -/
def AbcSummary.merge (current : Option AbcSummary) (metric : Option Abc) :
    Option AbcSummary :=
  merge_with AbcSummary.default AbcSummary.add_count AbcSummary.update current metric

/-- The body of the fold in `MetricsSummary::summarize`: one report's
metrics record merged into the running summary, category by category. -/
def fold_step (summary : MetricsSummary) (metrics : Metrics) : MetricsSummary :=
  { nargs := MetricValuesSummary.merge summary.nargs metrics.nargs
    nexits := BasicSummary.merge summary.nexits metrics.nexits
    cognitive := BasicSummary.merge summary.cognitive metrics.cognitive
    cyclomatic := BasicSummary.merge summary.cyclomatic metrics.cyclomatic
    halstead := HalsteadSummary.merge summary.halstead metrics.halstead
    loc := LocSummary.merge summary.loc metrics.loc
    nom := NomSummary.merge summary.nom metrics.nom
    mi := MiSummary.merge summary.mi metrics.mi
    abc := AbcSummary.merge summary.abc metrics.abc }

/-- `MetricsSummary::summarize` from `src/analysis.rs`:
`json_data.iter().flat_map(|d| d.metrics.as_ref()).fold(Default::default(), ...)`. -/
def MetricsSummary.summarize (json_data : List JsonData) : MetricsSummary :=
  (json_data.filterMap JsonData.metrics).foldl fold_step MetricsSummary.default

/-! ## Directory analysis (`src/analysis.rs`), with I/O abstracted -/

/-- `AppError` from `src/error.rs` (only the variant `analyze_directory`
constructs). -/
inductive AppError where
  | AnalysisError (msg : String)
  deriving DecidableEq

/-- An abstract snapshot of the file-system interactions of
`analyze_directory`: whether the root is a directory, the `.json` regular
files found by the `WalkDir` traversal, and the result of
`fs::read_to_string` on each path (`none` = read failure). -/
structure FileSystem where
  is_dir : Bool
  json_files : List String
  read_to_string : String → Option String

/-- `read_json_file` from `src/analysis.rs`: read then decode, any failure
collapsing to `None` (the `or_else` branch only logs a diagnostic).  The
serde decoder is passed as an explicit function `parse`. -/
def read_json_file (fs : FileSystem) (parse : String → Option JsonData)
    (file_path : String) : Option JsonData :=
  (fs.read_to_string file_path).bind parse

/-- `analyze_directory` from `src/analysis.rs`, with the presentation-only
table construction dropped: returns the folded summary, or an error exactly
when the root path is not a directory. -/
def analyze_directory (fs : FileSystem) (parse : String → Option JsonData)
    (path : String) : Except AppError MetricsSummary :=
  if fs.is_dir = false then
    Except.error (AppError.AnalysisError (path ++ " is not a directory"))
  else
    Except.ok (MetricsSummary.summarize (fs.json_files.filterMap (read_json_file fs parse)))

/-! ## Generic facts about `merge_with` -/

/-- An absent metric leaves the accumulator untouched. -/
theorem merge_with_none {T M : Type} (dflt : T) (ac : T → T) (u : T → M → T)
    (c : Option T) : merge_with dflt ac u c none = c := rfl

/-- A present metric always yields a present accumulator. -/
theorem merge_with_isSome {T M : Type} (dflt : T) (ac : T → T) (u : T → M → T)
    (c : Option T) (m : M) : (merge_with dflt ac u c (some m)).isSome = true := rfl

/-- Presence of the accumulator is preserved by any merge step. -/
theorem merge_with_isSome_mono {T M : Type} (dflt : T) (ac : T → T) (u : T → M → T)
    (c : Option T) (metric : Option M) (h : c.isSome = true) :
    (merge_with dflt ac u c metric).isSome = true := by
  cases metric with
  | none => exact h
  | some m => rfl

/-- If one combined update-and-count step is commutative (on metrics
satisfying `P`), so is the option-level merge. -/
theorem merge_with_left_comm {T M : Type} (dflt : T) (ac : T → T) (u : T → M → T)
    (P : M → Prop)
    (h : ∀ t x y, P x → P y → ac (u (ac (u t x)) y) = ac (u (ac (u t y)) x))
    (c : Option T) (mx my : Option M)
    (hx : ∀ m, mx = some m → P m) (hy : ∀ m, my = some m → P m) :
    merge_with dflt ac u (merge_with dflt ac u c mx) my =
      merge_with dflt ac u (merge_with dflt ac u c my) mx := by
  cases mx with
  | none => rfl
  | some x =>
    cases my with
    | none => rfl
    | some y =>
      simp only [merge_with, Option.getD_some]
      exact congrArg some (h (c.getD dflt) x y (hx x rfl) (hy y rfl))

/-- Left-commutative folds are invariant under permutation of inputs all
satisfying `P`. -/
theorem foldl_perm_of_forall {α β : Type} (P : α → Prop) (f : β → α → β)
    (hf : ∀ b x y, P x → P y → f (f b x) y = f (f b y) x) :
    ∀ {l₁ l₂ : List α}, l₁.Perm l₂ → (∀ x ∈ l₁, P x) → ∀ b, l₁.foldl f b = l₂.foldl f b := by
  intro l₁ l₂ hp
  induction hp with
  | nil => intro _ _; rfl
  | cons a h ih =>
    intro hP b
    simp only [List.foldl_cons]
    exact ih (fun x hx => hP x (List.mem_cons_of_mem a hx)) (f b a)
  | swap a a' l =>
    intro hP b
    simp only [List.foldl_cons]
    rw [hf b a' a (hP a' (by simp)) (hP a (by simp))]
  | trans h₁ h₂ ih₁ ih₂ =>
    intro hP b
    rw [ih₁ hP b]
    exact ih₂ (fun x hx => hP x (h₁.mem_iff.mpr hx)) b

/-! ## Commutativity of the per-category update steps -/

/-- The running-mean update is order-independent across two consecutive
files (exact arithmetic). -/
theorem update_average_comm (a x y : Option ℚ) (n : ℕ) :
    update_average (update_average a n x) (n + 1) y =
      update_average (update_average a n y) (n + 1) x := by
  simp only [update_average, Option.getD_some]
  have h : ((n : ℚ) + 1) ≠ 0 := by positivity
  congr 1
  field_simp
  ring

/-- `max` analogue of `min_right_comm`. -/
theorem max_rcomm {α : Type} [LinearOrder α] (a b c : α) :
    Max.max (Max.max a b) c = Max.max (Max.max a c) b := by
  rw [max_assoc, max_comm b c, ← max_assoc]

/-- Two consecutive `BasicSummary` update steps commute. -/
theorem basic_step_comm (t : BasicSummary) (x y : BasicMetric) :
    BasicSummary.add_count (BasicSummary.update (BasicSummary.add_count (BasicSummary.update t x)) y) =
      BasicSummary.add_count (BasicSummary.update (BasicSummary.add_count (BasicSummary.update t y)) x) := by
  simp only [BasicSummary.update, BasicSummary.add_count, BasicSummary.mk.injEq]
  and_intros <;> first
    | trivial
    | exact min_right_comm _ _ _
    | exact max_rcomm _ _ _
    | ring

/-- Two consecutive `MetricValuesSummary` update steps commute. -/
theorem mvs_step_comm (t : MetricValuesSummary) (x y : MetricValues) :
    MetricValuesSummary.add_count
        (MetricValuesSummary.update (MetricValuesSummary.add_count (MetricValuesSummary.update t x)) y) =
      MetricValuesSummary.add_count
        (MetricValuesSummary.update (MetricValuesSummary.add_count (MetricValuesSummary.update t y)) x) := by
  simp only [MetricValuesSummary.update, MetricValuesSummary.add_count, Option.getD_some,
    MetricValuesSummary.mk.injEq]
  and_intros <;> first
    | trivial
    | exact update_average_comm _ _ _ _
    | exact congrArg some (min_right_comm _ _ _)
    | exact congrArg some (max_rcomm _ _ _)
    | exact min_right_comm _ _ _
    | exact max_rcomm _ _ _
    | exact congrArg some (by ring)

/-- Two consecutive `HalsteadSummary` update steps commute. -/
theorem halstead_step_comm (t : HalsteadSummary) (x y : Halstead) :
    HalsteadSummary.add_count (HalsteadSummary.update (HalsteadSummary.add_count (HalsteadSummary.update t x)) y) =
      HalsteadSummary.add_count (HalsteadSummary.update (HalsteadSummary.add_count (HalsteadSummary.update t y)) x) := by
  simp only [HalsteadSummary.update, HalsteadSummary.add_count, HalsteadSummary.mk.injEq]
  and_intros <;> first
    | trivial
    | ring

/-- Two consecutive `NomSummary` update steps commute. -/
theorem nom_step_comm (t : NomSummary) (x y : Nom) :
    NomSummary.add_count (NomSummary.update (NomSummary.add_count (NomSummary.update t x)) y) =
      NomSummary.add_count (NomSummary.update (NomSummary.add_count (NomSummary.update t y)) x) := by
  simp only [NomSummary.update, NomSummary.add_count, NomSummary.mk.injEq]
  and_intros <;> first
    | trivial
    | ring

/-- Two consecutive `MiSummary` update steps commute. -/
theorem mi_step_comm (t : MiSummary) (x y : Mi) :
    MiSummary.add_count (MiSummary.update (MiSummary.add_count (MiSummary.update t x)) y) =
      MiSummary.add_count (MiSummary.update (MiSummary.add_count (MiSummary.update t y)) x) := by
  simp only [MiSummary.update, MiSummary.add_count, MiSummary.mk.injEq]
  and_intros <;> first
    | trivial
    | ring

/-- Two consecutive `AbcSummary` update steps commute. -/
theorem abc_step_comm (t : AbcSummary) (x y : Abc) :
    AbcSummary.add_count (AbcSummary.update (AbcSummary.add_count (AbcSummary.update t x)) y) =
      AbcSummary.add_count (AbcSummary.update (AbcSummary.add_count (AbcSummary.update t y)) x) := by
  simp only [AbcSummary.update, AbcSummary.add_count, AbcSummary.mk.injEq]
  and_intros <;> first
    | trivial
    | ring

/-- One zero-sentinel min step of `LocSummary::merge`:
`if s = 0 then v else min s v`.  Two such steps commute when both incoming
values are strictly positive. -/
theorem loc_min_step_comm (t x y : ℚ) (hx : 0 < x) (hy : 0 < y) :
    (if (if t = 0 then x else Min.min t x) = 0 then y
      else Min.min (if t = 0 then x else Min.min t x) y) =
    (if (if t = 0 then y else Min.min t y) = 0 then x
      else Min.min (if t = 0 then y else Min.min t y) x) := by
  rcases eq_or_ne t 0 with ht | ht
  · subst ht
    rw [if_pos rfl, if_pos rfl, if_neg hx.ne', if_neg hy.ne', min_comm]
  · rw [if_neg ht, if_neg ht]
    have hmx : Min.min t x ≠ 0 := by
      rcases lt_or_gt_of_ne ht with h | h
      · exact ((min_le_left t x).trans_lt h).ne
      · exact (lt_min h hx).ne'
    have hmy : Min.min t y ≠ 0 := by
      rcases lt_or_gt_of_ne ht with h | h
      · exact ((min_le_left t y).trans_lt h).ne
      · exact (lt_min h hy).ne'
    rw [if_neg hmx, if_neg hmy, min_right_comm]

/-- A `Loc` record is "good" when each of its five min fields carries a
strictly positive value (so the zero-as-unset sentinel of
`LocSummary::merge` is never triggered spuriously). -/
def GoodLoc (l : Loc) : Prop :=
  0 < l.sloc_min.getD 0 ∧ 0 < l.ploc_min.getD 0 ∧ 0 < l.lloc_min.getD 0 ∧
    0 < l.cloc_min.getD 0 ∧ 0 < l.blank_min.getD 0

instance (l : Loc) : Decidable (GoodLoc l) := by
  unfold GoodLoc
  infer_instance

/-- A metrics record is "good" when its `loc` category, if present, is
good. -/
def GoodMetrics (m : Metrics) : Prop := ∀ l, m.loc = some l → GoodLoc l

instance (m : Metrics) : Decidable (GoodMetrics m) :=
  match hm : m.loc with
  | none => isTrue (fun l h => absurd h (by rw [hm]; exact fun h => nomatch h))
  | some l =>
    if hl : GoodLoc l then
      isTrue (fun l2 h => by rw [hm] at h; exact (Option.some.inj h) ▸ hl)
    else isFalse (fun hg => hl (hg l hm))

/-- A report is "good" when its metrics record, if present, is good. -/
def GoodData (d : JsonData) : Prop := ∀ m, d.metrics = some m → GoodMetrics m

instance (d : JsonData) : Decidable (GoodData d) :=
  match hm : d.metrics with
  | none => isTrue (fun m h => absurd h (by rw [hm]; exact fun h => nomatch h))
  | some m =>
    if hl : GoodMetrics m then
      isTrue (fun m2 h => by rw [hm] at h; exact (Option.some.inj h) ▸ hl)
    else isFalse (fun hg => hl (hg m hm))

/-- Two consecutive good `LocSummary` update steps commute. -/
theorem loc_step_comm (t : LocSummary) (x y : Loc)
    (hx : GoodLoc x) (hy : GoodLoc y) :
    LocSummary.add_count (LocSummary.update (LocSummary.add_count (LocSummary.update t x)) y) =
      LocSummary.add_count (LocSummary.update (LocSummary.add_count (LocSummary.update t y)) x) := by
  simp only [LocSummary.update, LocSummary.add_count, LocSummary.mk.injEq]
  and_intros <;> first
    | trivial
    | exact min_right_comm _ _ _
    | exact max_rcomm _ _ _
    | exact loc_min_step_comm _ _ _ hx.1 hy.1
    | exact loc_min_step_comm _ _ _ hx.2.1 hy.2.1
    | exact loc_min_step_comm _ _ _ hx.2.2.1 hy.2.2.1
    | exact loc_min_step_comm _ _ _ hx.2.2.2.1 hy.2.2.2.1
    | exact loc_min_step_comm _ _ _ hx.2.2.2.2 hy.2.2.2.2
    | ring

/-- `MetricValuesSummary::merge` is left-commutative. -/
theorem mvs_merge_left_comm (c : Option MetricValuesSummary)
    (mx my : Option MetricValues) :
    MetricValuesSummary.merge (MetricValuesSummary.merge c mx) my =
      MetricValuesSummary.merge (MetricValuesSummary.merge c my) mx :=
  merge_with_left_comm _ _ _ (fun _ => True)
    (fun t x y _ _ => mvs_step_comm t x y) c mx my
    (fun _ _ => trivial) (fun _ _ => trivial)

/-- `BasicSummary::merge` is left-commutative. -/
theorem basic_merge_left_comm (c : Option BasicSummary)
    (mx my : Option BasicMetric) :
    BasicSummary.merge (BasicSummary.merge c mx) my =
      BasicSummary.merge (BasicSummary.merge c my) mx :=
  merge_with_left_comm _ _ _ (fun _ => True)
    (fun t x y _ _ => basic_step_comm t x y) c mx my
    (fun _ _ => trivial) (fun _ _ => trivial)

/-- `HalsteadSummary::merge` is left-commutative. -/
theorem halstead_merge_left_comm (c : Option HalsteadSummary)
    (mx my : Option Halstead) :
    HalsteadSummary.merge (HalsteadSummary.merge c mx) my =
      HalsteadSummary.merge (HalsteadSummary.merge c my) mx :=
  merge_with_left_comm _ _ _ (fun _ => True)
    (fun t x y _ _ => halstead_step_comm t x y) c mx my
    (fun _ _ => trivial) (fun _ _ => trivial)

/-- `LocSummary::merge` is left-commutative on good `Loc` records. -/
theorem loc_merge_left_comm (c : Option LocSummary) (mx my : Option Loc)
    (hx : ∀ l, mx = some l → GoodLoc l) (hy : ∀ l, my = some l → GoodLoc l) :
    LocSummary.merge (LocSummary.merge c mx) my =
      LocSummary.merge (LocSummary.merge c my) mx :=
  merge_with_left_comm _ _ _ GoodLoc
    (fun t x y hgx hgy => loc_step_comm t x y hgx hgy) c mx my hx hy

/-- `NomSummary::merge` is left-commutative. -/
theorem nom_merge_left_comm (c : Option NomSummary) (mx my : Option Nom) :
    NomSummary.merge (NomSummary.merge c mx) my =
      NomSummary.merge (NomSummary.merge c my) mx :=
  merge_with_left_comm _ _ _ (fun _ => True)
    (fun t x y _ _ => nom_step_comm t x y) c mx my
    (fun _ _ => trivial) (fun _ _ => trivial)

/-- `MiSummary::merge` is left-commutative. -/
theorem mi_merge_left_comm (c : Option MiSummary) (mx my : Option Mi) :
    MiSummary.merge (MiSummary.merge c mx) my =
      MiSummary.merge (MiSummary.merge c my) mx :=
  merge_with_left_comm _ _ _ (fun _ => True)
    (fun t x y _ _ => mi_step_comm t x y) c mx my
    (fun _ _ => trivial) (fun _ _ => trivial)

/-- `AbcSummary::merge` is left-commutative. -/
theorem abc_merge_left_comm (c : Option AbcSummary) (mx my : Option Abc) :
    AbcSummary.merge (AbcSummary.merge c mx) my =
      AbcSummary.merge (AbcSummary.merge c my) mx :=
  merge_with_left_comm _ _ _ (fun _ => True)
    (fun t x y _ _ => abc_step_comm t x y) c mx my
    (fun _ _ => trivial) (fun _ _ => trivial)

/-- Two fold steps of `summarize` commute when both metrics records are
good. -/
theorem fold_step_left_comm (b : MetricsSummary) (x y : Metrics)
    (hx : GoodMetrics x) (hy : GoodMetrics y) :
    fold_step (fold_step b x) y = fold_step (fold_step b y) x := by
  simp only [fold_step, MetricsSummary.mk.injEq]
  exact ⟨mvs_merge_left_comm _ _ _, basic_merge_left_comm _ _ _,
    basic_merge_left_comm _ _ _, basic_merge_left_comm _ _ _,
    halstead_merge_left_comm _ _ _, loc_merge_left_comm _ _ _ hx hy,
    nom_merge_left_comm _ _ _, mi_merge_left_comm _ _ _,
    abc_merge_left_comm _ _ _⟩

/-! ## Concrete report constructors for counterexamples and witnesses -/

/-- A metrics record with every category absent. -/
def Metrics.empty : Metrics :=
  ⟨none, none, none, none, none, none, none, none, none, none, none, none⟩

/-- A LOC record with every field absent. -/
def Loc.empty : Loc :=
  ⟨none, none, none, none, none, none, none, none, none, none, none, none,
    none, none, none, none, none, none, none, none⟩

/-- A report carrying the given metrics record. -/
def JsonData.ofMetrics (m : Option Metrics) : JsonData :=
  ⟨"file.json", 1, 10, "unit", [], m⟩

/-- Report whose LOC category carries `sloc_min = 0` only. -/
def locReport0 : JsonData :=
  JsonData.ofMetrics (some { Metrics.empty with loc := some { Loc.empty with sloc_min := some 0 } })

/-- Report whose LOC category carries `sloc_min = 5` only. -/
def locReport5 : JsonData :=
  JsonData.ofMetrics (some { Metrics.empty with loc := some { Loc.empty with sloc_min := some 5 } })

/-- C1: The claim is false on the code as written: swapping two LOC
reports (per-file `sloc_min` 0 and 5, everything else absent) changes the
resulting summary — the zero-as-unset sentinel of `LocSummary::merge`
makes the fold order-dependent (`sloc_min` ends as 5 in one order and 0 in
the other). -/
theorem C1_counterexample :
    List.Perm [locReport0, locReport5] [locReport5, locReport0] ∧
      MetricsSummary.summarize [locReport0, locReport5] ≠
        MetricsSummary.summarize [locReport5, locReport0] := by
  refine ⟨List.Perm.swap locReport5 locReport0 [], fun h => ?_⟩
  have h2 := congrArg (fun s => Option.map LocSummary.sloc_min s.loc) h
  simp [MetricsSummary.summarize, fold_step, LocSummary.merge, merge_with,
    LocSummary.update, LocSummary.add_count, LocSummary.default, MetricsSummary.default,
    locReport0, locReport5, JsonData.ofMetrics, Metrics.empty, Loc.empty] at h2

/-- C1 (amended): `summarize` is invariant under permutation of its input
reports, provided every report's LOC min fields (`sloc_min`, `ploc_min`,
`lloc_min`, `cloc_min`, `blank_min`), whenever the report supplies the
`loc` category, are present and strictly positive.  (Without that proviso
the zero-as-unset LOC min sentinel makes the fold order-dependent; all
other categories need no proviso.) -/
theorem C1_amended_summarize_perm (l1 l2 : List JsonData) (hp : l1.Perm l2)
    (hg : ∀ d ∈ l1, GoodData d) :
    MetricsSummary.summarize l1 = MetricsSummary.summarize l2 := by
  unfold MetricsSummary.summarize
  refine foldl_perm_of_forall GoodMetrics fold_step
    (fun b x y hx hy => fold_step_left_comm b x y hx hy)
    (hp.filterMap JsonData.metrics) ?_ _
  intro m hm
  obtain ⟨d, hd, hdm⟩ := List.mem_filterMap.mp hm
  exact hg d hd m hdm

/-- Report whose LOC category has positive values in every min field. -/
def goodLocReportA : JsonData :=
  JsonData.ofMetrics (some { Metrics.empty with loc := some { Loc.empty with
    sloc := some 10, sloc_min := some 2, ploc_min := some 3, lloc_min := some 4,
    cloc_min := some 5, blank_min := some 6 } })

/-- A second all-positive-min LOC report. -/
def goodLocReportB : JsonData :=
  JsonData.ofMetrics (some { Metrics.empty with loc := some { Loc.empty with
    sloc := some 20, sloc_min := some 1, ploc_min := some 7, lloc_min := some 2,
    cloc_min := some 9, blank_min := some 3 } })

/-- Witness for C1 (amended) at a concrete pair of good reports. -/
theorem C1_witness :
    ([goodLocReportA, goodLocReportB].Perm [goodLocReportB, goodLocReportA] ∧
        (∀ d ∈ [goodLocReportA, goodLocReportB], GoodData d)) ∧
      MetricsSummary.summarize [goodLocReportA, goodLocReportB] =
        MetricsSummary.summarize [goodLocReportB, goodLocReportA] := by
  have hp : [goodLocReportA, goodLocReportB].Perm [goodLocReportB, goodLocReportA] :=
    List.Perm.swap goodLocReportB goodLocReportA []
  have hg : ∀ d ∈ [goodLocReportA, goodLocReportB], GoodData d := by
    intro d hd
    rcases List.mem_cons.mp hd with h | h
    · subst h
      intro m hm l hl
      simp only [goodLocReportA, JsonData.ofMetrics, Option.some.injEq] at hm
      subst hm
      simp only [Metrics.empty, Option.some.injEq] at hl
      subst hl
      refine ⟨?_, ?_, ?_, ?_, ?_⟩ <;> norm_num [Loc.empty]
    · rcases List.mem_cons.mp h with h2 | h2
      · subst h2
        intro m hm l hl
        simp only [goodLocReportB, JsonData.ofMetrics, Option.some.injEq] at hm
        subst hm
        simp only [Metrics.empty, Option.some.injEq] at hl
        subst hl
        refine ⟨?_, ?_, ?_, ?_, ?_⟩ <;> norm_num [Loc.empty]
      · exact absurd h2 (List.not_mem_nil d)
  exact ⟨⟨hp, hg⟩, C1_amended_summarize_perm _ _ hp hg⟩

/-- Report whose nexits category carries `min = 5` only. -/
def nexitsMin5Report : JsonData :=
  JsonData.ofMetrics (some { Metrics.empty with nexits := some ⟨none, none, some 5, none⟩ })

/-- Report whose LOC category is present but has no min fields. -/
def locNoMinReport : JsonData :=
  JsonData.ofMetrics (some { Metrics.empty with loc := some Loc.empty })

/-- C2: evaluation of the code at the failing inputs.  A single nexits
report with `min = 5` summarizes to `min = 0` (the zero-initialized
accumulator, not the type's maximum, is the absent-min identity), and a
LOC report with an absent `sloc_min` drags an established running minimum
of 5 down to 0 (`unwrap_or(0.0)`), so the absent field does spuriously
lower the minimum. -/
theorem C2_failing_eval :
    ((MetricsSummary.summarize [nexitsMin5Report]).nexits.map BasicSummary.min = some 0) ∧
      ((MetricsSummary.summarize [locReport5]).loc.map LocSummary.sloc_min = some 5) ∧
      ((MetricsSummary.summarize [locReport5, locNoMinReport]).loc.map LocSummary.sloc_min =
        some 0) := by
  refine ⟨?_, ?_, ?_⟩
  · simp [MetricsSummary.summarize, fold_step, BasicSummary.merge, merge_with,
      BasicSummary.update, BasicSummary.add_count, BasicSummary.default, MetricsSummary.default,
      nexitsMin5Report, JsonData.ofMetrics, Metrics.empty]
  · simp [MetricsSummary.summarize, fold_step, LocSummary.merge, merge_with,
      LocSummary.update, LocSummary.add_count, LocSummary.default, MetricsSummary.default,
      locReport5, JsonData.ofMetrics, Metrics.empty, Loc.empty]
  · simp [MetricsSummary.summarize, fold_step, LocSummary.merge, merge_with,
      LocSummary.update, LocSummary.add_count, LocSummary.default, MetricsSummary.default,
      locReport5, locNoMinReport, JsonData.ofMetrics, Metrics.empty, Loc.empty]

/-- Report whose nexits category carries `average = q` only. -/
def nexitsAvgReport (q : ℚ) : JsonData :=
  JsonData.ofMetrics (some { Metrics.empty with nexits := some ⟨none, some q, none, none⟩ })

/-- C3: the claim is false on the code for the basic-metric average: two
nexits reports with per-file averages 2 and 4 fold to `average = 6` (the
code accumulates `+=`, a sum of per-file averages), not `(2 + 4) / 2 = 3`. -/
theorem C3_counterexample :
    (MetricsSummary.summarize [nexitsAvgReport 2, nexitsAvgReport 4]).nexits.map
        BasicSummary.average = some 6 ∧
      ¬ ((MetricsSummary.summarize [nexitsAvgReport 2, nexitsAvgReport 4]).nexits.map
          BasicSummary.average = some ((2 + 4) / 2)) := by
  constructor
  · simp [MetricsSummary.summarize, fold_step, BasicSummary.merge, merge_with,
      BasicSummary.update, BasicSummary.add_count, BasicSummary.default, MetricsSummary.default,
      nexitsAvgReport, JsonData.ofMetrics, Metrics.empty]
    norm_num
  · simp [MetricsSummary.summarize, fold_step, BasicSummary.merge, merge_with,
      BasicSummary.update, BasicSummary.add_count, BasicSummary.default, MetricsSummary.default,
      nexitsAvgReport, JsonData.ofMetrics, Metrics.empty]
    norm_num

/-- Report whose LOC category carries `sloc = q` only. -/
def slocReport (q : ℚ) : JsonData :=
  JsonData.ofMetrics (some { Metrics.empty with loc := some { Loc.empty with sloc := some q } })

/-- Report whose LOC category carries `lloc = 7`, `cloc = 3`, `blank = 2`. -/
def llocReport : JsonData :=
  JsonData.ofMetrics (some { Metrics.empty with loc := some { Loc.empty with
    lloc := some 7, cloc := some 3, blank := some 2 } })

/-- Report with a metrics record but no LOC category. -/
def noLocReport : JsonData := JsonData.ofMetrics (some Metrics.empty)

/-- C4: evaluation of the code.  The positive part of the claim holds for
`sloc` (10, 20, 30 fold to `sloc = 60`, `count = 3`, and a fourth report
without `loc` changes nothing), but the `lloc`, `cloc` and `blank` totals
are never accumulated by `LocSummary::merge`: a report carrying
`lloc = 7`, `cloc = 3`, `blank = 2` summarizes to zeros in all three. -/
theorem C4_failing_eval :
    ((MetricsSummary.summarize [slocReport 10, slocReport 20, slocReport 30]).loc.map
        LocSummary.sloc = some 60) ∧
      ((MetricsSummary.summarize [slocReport 10, slocReport 20, slocReport 30]).loc.map
        LocSummary.count = some 3) ∧
      (MetricsSummary.summarize [slocReport 10, slocReport 20, slocReport 30, noLocReport] =
        MetricsSummary.summarize [slocReport 10, slocReport 20, slocReport 30]) ∧
      ((MetricsSummary.summarize [llocReport]).loc.map LocSummary.lloc = some 0) ∧
      ((MetricsSummary.summarize [llocReport]).loc.map LocSummary.cloc = some 0) ∧
      ((MetricsSummary.summarize [llocReport]).loc.map LocSummary.blank = some 0) := by
  refine ⟨?_, ?_, ?_, ?_, ?_, ?_⟩
  · simp [MetricsSummary.summarize, fold_step, LocSummary.merge, merge_with,
      LocSummary.update, LocSummary.add_count, LocSummary.default, MetricsSummary.default,
      slocReport, JsonData.ofMetrics, Metrics.empty, Loc.empty]
    norm_num
  · simp [MetricsSummary.summarize, fold_step, LocSummary.merge, merge_with,
      LocSummary.update, LocSummary.add_count, LocSummary.default, MetricsSummary.default,
      slocReport, JsonData.ofMetrics, Metrics.empty, Loc.empty]
  · rfl
  · simp [MetricsSummary.summarize, fold_step, LocSummary.merge, merge_with,
      LocSummary.update, LocSummary.add_count, LocSummary.default, MetricsSummary.default,
      llocReport, JsonData.ofMetrics, Metrics.empty, Loc.empty]
  · simp [MetricsSummary.summarize, fold_step, LocSummary.merge, merge_with,
      LocSummary.update, LocSummary.add_count, LocSummary.default, MetricsSummary.default,
      llocReport, JsonData.ofMetrics, Metrics.empty, Loc.empty]
  · simp [MetricsSummary.summarize, fold_step, LocSummary.merge, merge_with,
      LocSummary.update, LocSummary.add_count, LocSummary.default, MetricsSummary.default,
      llocReport, JsonData.ofMetrics, Metrics.empty, Loc.empty]

/-! ## Projecting the fold onto one category -/

/-- The fold of `summarize`, projected onto any one category, is the fold
of that category's merge alone. -/
theorem foldl_fold_step_proj {C : Type} (proj : MetricsSummary → C)
    (g : C → Metrics → C) (h : ∀ s m, proj (fold_step s m) = g (proj s) m) :
    ∀ (ms : List Metrics) (init : MetricsSummary),
      proj (ms.foldl fold_step init) = ms.foldl g (proj init) := by
  intro ms
  induction ms with
  | nil => intro init; rfl
  | cons m ms ih =>
    intro init
    simp only [List.foldl_cons]
    rw [ih (fold_step init m), h]

/-- Skipping absent metrics: folding an option-level merge over a list of
records equals folding over just the present ones. -/
theorem foldl_merge_filterMap {S M A : Type} (mg : Option S → Option A → Option S)
    (hskip : ∀ c, mg c none = c) (sel : M → Option A) :
    ∀ (ms : List M) (c : Option S),
      ms.foldl (fun c2 m => mg c2 (sel m)) c =
        (ms.filterMap sel).foldl (fun c2 a => mg c2 (some a)) c := by
  intro ms
  induction ms with
  | nil => intro c; rfl
  | cons m ms ih =>
    intro c
    cases hm : sel m with
    | none => simp [List.foldl_cons, hm, hskip, ih]
    | some a => simp [List.foldl_cons, hm, ih]

/-- The nargs record a report contributes, if any. -/
def nargs_of (d : JsonData) : Option MetricValues := d.metrics.bind Metrics.nargs

/-- The nargs category of a summary is the fold of
`MetricValuesSummary::merge` over the reports' nargs records. -/
theorem summarize_nargs_eq (data : List JsonData) :
    (MetricsSummary.summarize data).nargs =
      (data.filterMap nargs_of).foldl
        (fun c a => MetricValuesSummary.merge c (some a)) none := by
  unfold MetricsSummary.summarize
  rw [foldl_fold_step_proj MetricsSummary.nargs
    (fun c m => MetricValuesSummary.merge c m.nargs) (fun _ _ => rfl)]
  rw [foldl_merge_filterMap MetricValuesSummary.merge (fun _ => rfl) Metrics.nargs]
  rw [List.filterMap_filterMap]
  rfl

/-- All-present selections keep the list length. -/
theorem length_filterMap_of_isSome {A B : Type} (f : A → Option B) :
    ∀ (l : List A), (∀ x ∈ l, (f x).isSome = true) → (l.filterMap f).length = l.length := by
  intro l
  induction l with
  | nil => intro _; rfl
  | cons x l ih =>
    intro h
    obtain ⟨b, hb⟩ := Option.isSome_iff_exists.mp (h x (List.mem_cons_self x l))
    simp [List.filterMap_cons, hb, ih (fun y hy => h y (List.mem_cons_of_mem x hy))]

/-- Sum of one optional nargs field over a list of reports (absent values
contribute 0, exactly as `update_average`'s `unwrap_or(0.0)` does). -/
def nargs_field_sum (f : MetricValues → Option ℚ) (data : List JsonData) : ℚ :=
  (data.map (fun d => ((nargs_of d).bind f).getD 0)).sum

/-- When every report supplies nargs, the per-report field sum equals the
sum over the extracted nargs records. -/
theorem nargs_field_sum_eq (f : MetricValues → Option ℚ) :
    ∀ (data : List JsonData), (∀ d ∈ data, (nargs_of d).isSome = true) →
      nargs_field_sum f data =
        ((data.filterMap nargs_of).map (fun a => (f a).getD 0)).sum := by
  intro data
  induction data with
  | nil => intro _; rfl
  | cons d data ih =>
    intro h
    obtain ⟨a, ha⟩ := Option.isSome_iff_exists.mp (h d (List.mem_cons_self d data))
    have ih2 := ih (fun x hx => h x (List.mem_cons_of_mem d hx))
    simp only [nargs_field_sum, List.map_cons, List.sum_cons, ha, Option.some_bind] at ih2 ⊢
    rw [ih2, List.filterMap_cons_some ha, List.map_cons, List.sum_cons]

/-- Fold invariant for the nargs running means: the count advances by the
list length and each mean times the count advances by the sum of the
incoming per-file values (exact arithmetic). -/
theorem nargs_fold_invariant :
    ∀ (l : List MetricValues) (s : MetricValuesSummary),
      s.average.isSome = true → s.average_functions.isSome = true →
      s.average_closures.isSome = true →
      ∃ s2, l.foldl (fun c a => MetricValuesSummary.merge c (some a)) (some s) = some s2 ∧
        s2.count = s.count + l.length ∧
        s2.average.isSome = true ∧ s2.average_functions.isSome = true ∧
        s2.average_closures.isSome = true ∧
        s2.average.getD 0 * (s2.count : ℚ) =
          s.average.getD 0 * (s.count : ℚ) + (l.map (fun a => a.average.getD 0)).sum ∧
        s2.average_functions.getD 0 * (s2.count : ℚ) =
          s.average_functions.getD 0 * (s.count : ℚ) +
            (l.map (fun a => a.average_functions.getD 0)).sum ∧
        s2.average_closures.getD 0 * (s2.count : ℚ) =
          s.average_closures.getD 0 * (s.count : ℚ) +
            (l.map (fun a => a.average_closures.getD 0)).sum := by
  intro l
  induction l with
  | nil =>
    intro s h1 h2 h3
    exact ⟨s, rfl, rfl, h1, h2, h3, by simp, by simp, by simp⟩
  | cons a l ih =>
    intro s h1 h2 h3
    have hcast : ((s.count : ℚ) + 1) ≠ 0 := by positivity
    obtain ⟨s2, hfold, hcount, g1, g2, g3, e1, e2, e3⟩ :=
      ih (MetricValuesSummary.add_count (MetricValuesSummary.update s a)) rfl rfl rfl
    refine ⟨s2, ?_, ?_, g1, g2, g3, ?_, ?_, ?_⟩
    · simpa [List.foldl_cons, MetricValuesSummary.merge, merge_with] using hfold
    · rw [hcount]
      simp [MetricValuesSummary.add_count, MetricValuesSummary.update]
      omega
    · rw [e1]
      simp only [MetricValuesSummary.add_count, MetricValuesSummary.update, update_average,
        Option.getD_some, List.map_cons, List.sum_cons]
      push_cast
      rw [div_mul_cancel₀ _ hcast]
      ring
    · rw [e2]
      simp only [MetricValuesSummary.add_count, MetricValuesSummary.update, update_average,
        Option.getD_some, List.map_cons, List.sum_cons]
      push_cast
      rw [div_mul_cancel₀ _ hcast]
      ring
    · rw [e3]
      simp only [MetricValuesSummary.add_count, MetricValuesSummary.update, update_average,
        Option.getD_some, List.map_cons, List.sum_cons]
      push_cast
      rw [div_mul_cancel₀ _ hcast]
      ring

/-- C3 (amended): the running-mean formula holds exactly for the three
nargs mean fields (`average`, `average_functions`, `average_closures`),
the only fields merged through `update_average`: after folding reports
that all supply nargs, each equals the sum of the per-file values divided
by the number of reports.  (The basic-metric `average` and the per-LOC
`*_average` fields are instead accumulated additively — see the
counterexample — so the claim's "every category" part fails.) -/
theorem C3_amended_nargs_mean (data : List JsonData) (hne : data ≠ [])
    (hall : ∀ d ∈ data, (nargs_of d).isSome = true) :
    ∃ s, (MetricsSummary.summarize data).nargs = some s ∧ s.count = data.length ∧
      s.average = some (nargs_field_sum MetricValues.average data / (data.length : ℚ)) ∧
      s.average_functions =
        some (nargs_field_sum MetricValues.average_functions data / (data.length : ℚ)) ∧
      s.average_closures =
        some (nargs_field_sum MetricValues.average_closures data / (data.length : ℚ)) := by
  have hlen : (data.filterMap nargs_of).length = data.length :=
    length_filterMap_of_isSome nargs_of data hall
  have hsum1 := nargs_field_sum_eq MetricValues.average data hall
  have hsum2 := nargs_field_sum_eq MetricValues.average_functions data hall
  have hsum3 := nargs_field_sum_eq MetricValues.average_closures data hall
  have hproj := summarize_nargs_eq data
  cases hl : data.filterMap nargs_of with
  | nil =>
    rw [hl] at hlen
    exact absurd (List.length_eq_zero.mp hlen.symm) hne
  | cons a rest =>
    have hn : data.length = rest.length + 1 := by
      rw [← hlen, hl, List.length_cons]
    obtain ⟨s2, hfold, hcount, g1, g2, g3, e1, e2, e3⟩ :=
      nargs_fold_invariant rest
        (MetricValuesSummary.add_count (MetricValuesSummary.update MetricValuesSummary.default a))
        rfl rfl rfl
    have hnargs : (MetricsSummary.summarize data).nargs = some s2 := by
      rw [hproj, hl, List.foldl_cons]
      exact hfold
    have hcount2 : s2.count = data.length := by
      rw [hcount, hn]
      simp [MetricValuesSummary.add_count, MetricValuesSummary.update,
        MetricValuesSummary.default]
      omega
    have hq : ((data.length : ℚ)) ≠ 0 := by
      rw [hn]
      push_cast
      positivity
    refine ⟨s2, hnargs, hcount2, ?_, ?_, ?_⟩
    · obtain ⟨v, hv⟩ := Option.isSome_iff_exists.mp g1
      rw [hv]
      have e := e1
      rw [hv, hcount2] at e
      simp only [Option.getD_some, MetricValuesSummary.add_count, MetricValuesSummary.update,
        MetricValuesSummary.default, update_average, Option.getD_none] at e
      norm_num at e
      rw [hsum1, hl, List.map_cons, List.sum_cons]
      congr 1
      rw [eq_div_iff hq]
      linear_combination e
    · obtain ⟨v, hv⟩ := Option.isSome_iff_exists.mp g2
      rw [hv]
      have e := e2
      rw [hv, hcount2] at e
      simp only [Option.getD_some, MetricValuesSummary.add_count, MetricValuesSummary.update,
        MetricValuesSummary.default, update_average, Option.getD_none] at e
      norm_num at e
      rw [hsum2, hl, List.map_cons, List.sum_cons]
      congr 1
      rw [eq_div_iff hq]
      linear_combination e
    · obtain ⟨v, hv⟩ := Option.isSome_iff_exists.mp g3
      rw [hv]
      have e := e3
      rw [hv, hcount2] at e
      simp only [Option.getD_some, MetricValuesSummary.add_count, MetricValuesSummary.update,
        MetricValuesSummary.default, update_average, Option.getD_none] at e
      norm_num at e
      rw [hsum3, hl, List.map_cons, List.sum_cons]
      congr 1
      rw [eq_div_iff hq]
      linear_combination e

/-- An nargs record carrying only the three average fields. -/
def nargsValues (af ac av : ℚ) : MetricValues :=
  ⟨none, none, some af, some ac, none, some av, none, none, none, none⟩

/-- Report whose nargs category carries the three average fields. -/
def nargsReport (af ac av : ℚ) : JsonData :=
  JsonData.ofMetrics (some { Metrics.empty with nargs := some (nargsValues af ac av) })

/-- Witness for C3 (amended) at two concrete nargs reports. -/
theorem C3_witness :
    (([nargsReport 2 3 6, nargsReport 4 5 10] : List JsonData) ≠ [] ∧
        (∀ d ∈ [nargsReport 2 3 6, nargsReport 4 5 10], (nargs_of d).isSome = true)) ∧
      ∃ s, (MetricsSummary.summarize [nargsReport 2 3 6, nargsReport 4 5 10]).nargs = some s ∧
        s.count = [nargsReport 2 3 6, nargsReport 4 5 10].length ∧
        s.average = some (nargs_field_sum MetricValues.average
          [nargsReport 2 3 6, nargsReport 4 5 10] /
            ([nargsReport 2 3 6, nargsReport 4 5 10].length : ℚ)) ∧
        s.average_functions = some (nargs_field_sum MetricValues.average_functions
          [nargsReport 2 3 6, nargsReport 4 5 10] /
            ([nargsReport 2 3 6, nargsReport 4 5 10].length : ℚ)) ∧
        s.average_closures = some (nargs_field_sum MetricValues.average_closures
          [nargsReport 2 3 6, nargsReport 4 5 10] /
            ([nargsReport 2 3 6, nargsReport 4 5 10].length : ℚ)) := by
  have h1 : ([nargsReport 2 3 6, nargsReport 4 5 10] : List JsonData) ≠ [] := by simp
  have h2 : ∀ d ∈ [nargsReport 2 3 6, nargsReport 4 5 10], (nargs_of d).isSome = true := by
    intro d hd
    rcases List.mem_cons.mp hd with h | h
    · subst h; rfl
    · rcases List.mem_cons.mp h with h3 | h3
      · subst h3; rfl
      · exact absurd h3 (List.not_mem_nil d)
  exact ⟨⟨h1, h2⟩, C3_amended_nargs_mean _ h1 h2⟩

/-! ## Single-report merges (for absence propagation, C5) -/

/-- Merging one fully-populated nargs record into an absent accumulator
reproduces the record's values exactly (the extremum sentinels require the
values to lie in the representable range). -/
theorem mvs_merge_single (tf tc af ac tot av fmin fmax cmin cmax : ℚ)
    (h1 : fmin ≤ f64_MAX) (h2 : f64_MIN ≤ fmax) (h3 : cmin ≤ f64_MAX) (h4 : f64_MIN ≤ cmax) :
    MetricValuesSummary.merge none (some ⟨some tf, some tc, some af, some ac, some tot,
        some av, some fmin, some fmax, some cmin, some cmax⟩) =
      some ⟨some tf, some tc, some af, some ac, some tot, some av, some fmin, some fmax,
        some cmin, some cmax, 1⟩ := by
  simp only [MetricValuesSummary.merge, merge_with, MetricValuesSummary.update,
    MetricValuesSummary.add_count, MetricValuesSummary.default, update_average,
    Option.getD_some, Option.getD_none, Option.some.injEq, MetricValuesSummary.mk.injEq]
  and_intros <;> first
    | trivial
    | exact congrArg some (min_eq_right h1)
    | exact congrArg some (max_eq_right h2)
    | exact congrArg some (min_eq_right h3)
    | exact congrArg some (max_eq_right h4)
    | exact min_eq_right h1
    | exact max_eq_right h2
    | exact min_eq_right h3
    | exact max_eq_right h4
    | exact h1
    | exact h2
    | exact h3
    | exact h4
    | norm_num

/-- Merging one fully-populated basic record into an absent accumulator:
sum, average and count are exact, but min and max are clamped against the
zero-initialized accumulator. -/
theorem basic_merge_single (sm av mn mx : ℚ) :
    BasicSummary.merge none (some ⟨some sm, some av, some mn, some mx⟩) =
      some ⟨sm, av, Min.min 0 mn, Max.max 0 mx, 1⟩ := by
  simp only [BasicSummary.merge, merge_with, BasicSummary.update, BasicSummary.add_count,
    BasicSummary.default, Option.getD_some, Option.getD_none, Option.some.injEq,
    BasicSummary.mk.injEq]
  and_intros <;> norm_num

/-- Merging one fully-populated Halstead record into an absent accumulator
reproduces the nine summarized fields exactly. -/
theorem halstead_merge_single (v1 v2 vol pr bugs diff epl voc lev : ℚ)
    (n1u n2u len eff tim : Option ℚ) :
    HalsteadSummary.merge none (some ⟨some v1, n1u, some v2, n2u, len, some epl, some pr,
        some voc, some vol, some diff, some lev, eff, tim, some bugs⟩) =
      some ⟨v1, v2, vol, pr, bugs, diff, epl, voc, lev, 1⟩ := by
  simp only [HalsteadSummary.merge, merge_with, HalsteadSummary.update,
    HalsteadSummary.add_count, HalsteadSummary.default, Option.getD_some, Option.getD_none,
    Option.some.injEq, HalsteadSummary.mk.injEq]
  and_intros <;> norm_num

/-- Merging one fully-populated LOC record into an absent accumulator:
`sloc`/`ploc`, the averages and the min fields are exact, the max fields
are exact for nonnegative values, but the `lloc`, `cloc` and `blank`
totals stay 0. -/
theorem loc_merge_single
    (vsloc vploc vlloc vcloc vblank asloc aploc alloc acloc ablank
      slocmn slocmx clocmn clocmx plocmn plocmx llocmn llocmx blankmn blankmx : ℚ)
    (h1 : 0 ≤ slocmx) (h2 : 0 ≤ plocmx) (h3 : 0 ≤ llocmx) (h4 : 0 ≤ clocmx)
    (h5 : 0 ≤ blankmx) :
    LocSummary.merge none (some ⟨some vsloc, some vploc, some vlloc, some vcloc, some vblank,
        some asloc, some aploc, some alloc, some acloc, some ablank,
        some slocmn, some slocmx, some clocmn, some clocmx, some plocmn, some plocmx,
        some llocmn, some llocmx, some blankmn, some blankmx⟩) =
      some ⟨vsloc, vploc, 1, 0, 0, 0, asloc, aploc, alloc, acloc, ablank,
        slocmn, slocmx, clocmn, clocmx, plocmn, plocmx, llocmn, llocmx, blankmn, blankmx⟩ := by
  simp only [LocSummary.merge, merge_with, LocSummary.update, LocSummary.add_count,
    LocSummary.default, Option.getD_some, Option.getD_none, Option.some.injEq,
    LocSummary.mk.injEq, if_pos rfl]
  and_intros <;> first
    | trivial
    | exact max_eq_right h1
    | exact max_eq_right h2
    | exact max_eq_right h3
    | exact max_eq_right h4
    | exact max_eq_right h5
    | norm_num

/-- Merging one fully-populated Nom record into an absent accumulator. -/
theorem nom_merge_single (f c t : ℚ) (fa ca av fmin fmax cmin cmax : Option ℚ) :
    NomSummary.merge none (some ⟨some f, some c, fa, ca, some t, av, fmin, fmax, cmin, cmax⟩) =
      some ⟨f, c, t, 1⟩ := by
  simp only [NomSummary.merge, merge_with, NomSummary.update, NomSummary.add_count,
    NomSummary.default, Option.getD_some, Option.getD_none, Option.some.injEq,
    NomSummary.mk.injEq]
  and_intros <;> norm_num

/-- Merging one fully-populated Mi record into an absent accumulator. -/
theorem mi_merge_single (o s v : ℚ) :
    MiSummary.merge none (some ⟨some o, some s, some v⟩) = some ⟨o, s, v, 1⟩ := by
  simp only [MiSummary.merge, merge_with, MiSummary.update, MiSummary.add_count,
    MiSummary.default, Option.getD_some, Option.getD_none, Option.some.injEq,
    MiSummary.mk.injEq]
  and_intros <;> norm_num

/-- Merging one fully-populated Abc record into an absent accumulator. -/
theorem abc_merge_single (a b c : ℚ) (rest : Option ℚ)
    (r1 r2 r3 r4 r5 r6 r7 r8 r9 : Option ℚ) :
    AbcSummary.merge none (some ⟨some a, some b, some c, rest, r1, r2, r3, r4, r5, r6, r7,
        r8, r9⟩) = some ⟨a, b, c, 1⟩ := by
  simp only [AbcSummary.merge, merge_with, AbcSummary.update, AbcSummary.add_count,
    AbcSummary.default, Option.getD_some, Option.getD_none, Option.some.injEq,
    AbcSummary.mk.injEq]
  and_intros <;> norm_num

/-- The fold of `summarize`, projected onto one category, is the fold of
that category's merge over exactly the records the reports supply for it. -/
theorem summarize_proj_eq {S A : Type} (proj : MetricsSummary → Option S)
    (mg : Option S → Option A → Option S) (sel : Metrics → Option A)
    (hproj : ∀ s m, proj (fold_step s m) = mg (proj s) (sel m))
    (hdef : proj MetricsSummary.default = none)
    (hskip : ∀ c, mg c none = c)
    (data : List JsonData) :
    proj (MetricsSummary.summarize data) =
      (data.filterMap (fun d => d.metrics.bind sel)).foldl
        (fun c a => mg c (some a)) none := by
  unfold MetricsSummary.summarize
  rw [foldl_fold_step_proj proj (fun c m => mg c (sel m)) hproj, hdef,
    foldl_merge_filterMap mg hskip sel, List.filterMap_filterMap]

/-- A category supplied by no report of the collection stays absent. -/
theorem summarize_absent_generic {S A : Type} (proj : MetricsSummary → Option S)
    (mg : Option S → Option A → Option S) (sel : Metrics → Option A)
    (hproj : ∀ s m, proj (fold_step s m) = mg (proj s) (sel m))
    (hdef : proj MetricsSummary.default = none)
    (hskip : ∀ c, mg c none = c)
    (data : List JsonData) (hnone : ∀ d ∈ data, d.metrics.bind sel = none) :
    proj (MetricsSummary.summarize data) = none := by
  rw [summarize_proj_eq proj mg sel hproj hdef hskip data,
    List.filterMap_eq_nil_iff.mpr hnone]
  rfl

/-- A category supplied by exactly one report of the collection is one
merge step from absent. -/
theorem summarize_one_generic {S A : Type} (proj : MetricsSummary → Option S)
    (mg : Option S → Option A → Option S) (sel : Metrics → Option A)
    (hproj : ∀ s m, proj (fold_step s m) = mg (proj s) (sel m))
    (hdef : proj MetricsSummary.default = none)
    (hskip : ∀ c, mg c none = c)
    (data : List JsonData) (a : A)
    (hone : data.filterMap (fun d => d.metrics.bind sel) = [a]) :
    proj (MetricsSummary.summarize data) = mg none (some a) := by
  rw [summarize_proj_eq proj mg sel hproj hdef hskip data, hone]
  rfl

/-- C5 (amended): over an arbitrary collection of reports, a category
supplied by zero reports yields an absent category summary; a category
supplied by exactly one report yields `count = 1` and that report's own
field values — except that `BasicSummary` min/max are clamped against the
zero-initialized accumulator (`min 0 v` / `max 0 v`), the LOC
`lloc`/`cloc`/`blank` totals stay 0, LOC max fields need nonnegative
values, and the nargs extrema need values within the representable
range. -/
theorem C5_amended_absence_and_single :
    MetricsSummary.summarize [] = MetricsSummary.default ∧
    (∀ data : List JsonData,
      ((∀ d ∈ data, d.metrics.bind Metrics.nargs = none) →
        (MetricsSummary.summarize data).nargs = none) ∧
      ((∀ d ∈ data, d.metrics.bind Metrics.nexits = none) →
        (MetricsSummary.summarize data).nexits = none) ∧
      ((∀ d ∈ data, d.metrics.bind Metrics.cognitive = none) →
        (MetricsSummary.summarize data).cognitive = none) ∧
      ((∀ d ∈ data, d.metrics.bind Metrics.cyclomatic = none) →
        (MetricsSummary.summarize data).cyclomatic = none) ∧
      ((∀ d ∈ data, d.metrics.bind Metrics.halstead = none) →
        (MetricsSummary.summarize data).halstead = none) ∧
      ((∀ d ∈ data, d.metrics.bind Metrics.loc = none) →
        (MetricsSummary.summarize data).loc = none) ∧
      ((∀ d ∈ data, d.metrics.bind Metrics.nom = none) →
        (MetricsSummary.summarize data).nom = none) ∧
      ((∀ d ∈ data, d.metrics.bind Metrics.mi = none) →
        (MetricsSummary.summarize data).mi = none) ∧
      ((∀ d ∈ data, d.metrics.bind Metrics.abc = none) →
        (MetricsSummary.summarize data).abc = none)) ∧
    (∀ data : List JsonData,
      (∀ tf tc af ac tot av fmin fmax cmin cmax : ℚ,
        data.filterMap (fun d => d.metrics.bind Metrics.nargs) =
          [⟨some tf, some tc, some af, some ac, some tot, some av,
            some fmin, some fmax, some cmin, some cmax⟩] →
        fmin ≤ f64_MAX → f64_MIN ≤ fmax → cmin ≤ f64_MAX → f64_MIN ≤ cmax →
        (MetricsSummary.summarize data).nargs = some ⟨some tf, some tc, some af, some ac,
          some tot, some av, some fmin, some fmax, some cmin, some cmax, 1⟩) ∧
      (∀ sm av mn mx : ℚ,
        data.filterMap (fun d => d.metrics.bind Metrics.nexits) =
          [⟨some sm, some av, some mn, some mx⟩] →
        (MetricsSummary.summarize data).nexits =
          some ⟨sm, av, Min.min 0 mn, Max.max 0 mx, 1⟩) ∧
      (∀ sm av mn mx : ℚ,
        data.filterMap (fun d => d.metrics.bind Metrics.cognitive) =
          [⟨some sm, some av, some mn, some mx⟩] →
        (MetricsSummary.summarize data).cognitive =
          some ⟨sm, av, Min.min 0 mn, Max.max 0 mx, 1⟩) ∧
      (∀ sm av mn mx : ℚ,
        data.filterMap (fun d => d.metrics.bind Metrics.cyclomatic) =
          [⟨some sm, some av, some mn, some mx⟩] →
        (MetricsSummary.summarize data).cyclomatic =
          some ⟨sm, av, Min.min 0 mn, Max.max 0 mx, 1⟩) ∧
      (∀ (v1 v2 vol pr bugs diff epl voc lev : ℚ) (n1u n2u len eff tim : Option ℚ),
        data.filterMap (fun d => d.metrics.bind Metrics.halstead) =
          [⟨some v1, n1u, some v2, n2u, len, some epl, some pr, some voc,
            some vol, some diff, some lev, eff, tim, some bugs⟩] →
        (MetricsSummary.summarize data).halstead =
          some ⟨v1, v2, vol, pr, bugs, diff, epl, voc, lev, 1⟩) ∧
      (∀ (vsloc vploc vlloc vcloc vblank asloc aploc alloc acloc ablank
          slocmn slocmx clocmn clocmx plocmn plocmx llocmn llocmx blankmn blankmx : ℚ),
        data.filterMap (fun d => d.metrics.bind Metrics.loc) =
          [⟨some vsloc, some vploc, some vlloc, some vcloc, some vblank,
            some asloc, some aploc, some alloc, some acloc, some ablank,
            some slocmn, some slocmx, some clocmn, some clocmx, some plocmn, some plocmx,
            some llocmn, some llocmx, some blankmn, some blankmx⟩] →
        0 ≤ slocmx → 0 ≤ plocmx → 0 ≤ llocmx → 0 ≤ clocmx → 0 ≤ blankmx →
        (MetricsSummary.summarize data).loc =
          some ⟨vsloc, vploc, 1, 0, 0, 0, asloc, aploc, alloc, acloc, ablank,
            slocmn, slocmx, clocmn, clocmx, plocmn, plocmx, llocmn, llocmx,
            blankmn, blankmx⟩) ∧
      (∀ (f c t : ℚ) (fa ca av2 fmn fmx cmn cmx : Option ℚ),
        data.filterMap (fun d => d.metrics.bind Metrics.nom) =
          [⟨some f, some c, fa, ca, some t, av2, fmn, fmx, cmn, cmx⟩] →
        (MetricsSummary.summarize data).nom = some ⟨f, c, t, 1⟩) ∧
      (∀ o s v : ℚ,
        data.filterMap (fun d => d.metrics.bind Metrics.mi) = [⟨some o, some s, some v⟩] →
        (MetricsSummary.summarize data).mi = some ⟨o, s, v, 1⟩) ∧
      (∀ (a b c : ℚ) (r0 r1 r2 r3 r4 r5 r6 r7 r8 r9 : Option ℚ),
        data.filterMap (fun d => d.metrics.bind Metrics.abc) =
          [⟨some a, some b, some c, r0, r1, r2, r3, r4, r5, r6, r7, r8, r9⟩] →
        (MetricsSummary.summarize data).abc = some ⟨a, b, c, 1⟩)) := by
  refine ⟨rfl, ?_, ?_⟩
  · intro data
    exact ⟨summarize_absent_generic MetricsSummary.nargs MetricValuesSummary.merge
        Metrics.nargs (fun _ _ => rfl) rfl (fun _ => rfl) data,
      summarize_absent_generic MetricsSummary.nexits BasicSummary.merge
        Metrics.nexits (fun _ _ => rfl) rfl (fun _ => rfl) data,
      summarize_absent_generic MetricsSummary.cognitive BasicSummary.merge
        Metrics.cognitive (fun _ _ => rfl) rfl (fun _ => rfl) data,
      summarize_absent_generic MetricsSummary.cyclomatic BasicSummary.merge
        Metrics.cyclomatic (fun _ _ => rfl) rfl (fun _ => rfl) data,
      summarize_absent_generic MetricsSummary.halstead HalsteadSummary.merge
        Metrics.halstead (fun _ _ => rfl) rfl (fun _ => rfl) data,
      summarize_absent_generic MetricsSummary.loc LocSummary.merge
        Metrics.loc (fun _ _ => rfl) rfl (fun _ => rfl) data,
      summarize_absent_generic MetricsSummary.nom NomSummary.merge
        Metrics.nom (fun _ _ => rfl) rfl (fun _ => rfl) data,
      summarize_absent_generic MetricsSummary.mi MiSummary.merge
        Metrics.mi (fun _ _ => rfl) rfl (fun _ => rfl) data,
      summarize_absent_generic MetricsSummary.abc AbcSummary.merge
        Metrics.abc (fun _ _ => rfl) rfl (fun _ => rfl) data⟩
  · intro data
    refine ⟨?_, ?_, ?_, ?_, ?_, ?_, ?_, ?_, ?_⟩
    · intro tf tc af ac tot av fmin fmax cmin cmax hone h1 h2 h3 h4
      rw [summarize_one_generic MetricsSummary.nargs MetricValuesSummary.merge Metrics.nargs
        (fun _ _ => rfl) rfl (fun _ => rfl) data _ hone]
      exact mvs_merge_single tf tc af ac tot av fmin fmax cmin cmax h1 h2 h3 h4
    · intro sm av mn mx hone
      rw [summarize_one_generic MetricsSummary.nexits BasicSummary.merge Metrics.nexits
        (fun _ _ => rfl) rfl (fun _ => rfl) data _ hone]
      exact basic_merge_single sm av mn mx
    · intro sm av mn mx hone
      rw [summarize_one_generic MetricsSummary.cognitive BasicSummary.merge Metrics.cognitive
        (fun _ _ => rfl) rfl (fun _ => rfl) data _ hone]
      exact basic_merge_single sm av mn mx
    · intro sm av mn mx hone
      rw [summarize_one_generic MetricsSummary.cyclomatic BasicSummary.merge Metrics.cyclomatic
        (fun _ _ => rfl) rfl (fun _ => rfl) data _ hone]
      exact basic_merge_single sm av mn mx
    · intro v1 v2 vol pr bugs diff epl voc lev n1u n2u len eff tim hone
      rw [summarize_one_generic MetricsSummary.halstead HalsteadSummary.merge Metrics.halstead
        (fun _ _ => rfl) rfl (fun _ => rfl) data _ hone]
      exact halstead_merge_single v1 v2 vol pr bugs diff epl voc lev n1u n2u len eff tim
    · intro vsloc vploc vlloc vcloc vblank asloc aploc alloc acloc ablank
        slocmn slocmx clocmn clocmx plocmn plocmx llocmn llocmx blankmn blankmx hone
        hx1 hx2 hx3 hx4 hx5
      rw [summarize_one_generic MetricsSummary.loc LocSummary.merge Metrics.loc
        (fun _ _ => rfl) rfl (fun _ => rfl) data _ hone]
      exact loc_merge_single vsloc vploc vlloc vcloc vblank asloc aploc alloc acloc
        ablank slocmn slocmx clocmn clocmx plocmn plocmx llocmn llocmx blankmn blankmx
        hx1 hx2 hx3 hx4 hx5
    · intro f c t fa ca av2 fmn fmx cmn cmx hone
      rw [summarize_one_generic MetricsSummary.nom NomSummary.merge Metrics.nom
        (fun _ _ => rfl) rfl (fun _ => rfl) data _ hone]
      exact nom_merge_single f c t fa ca av2 fmn fmx cmn cmx
    · intro o s v hone
      rw [summarize_one_generic MetricsSummary.mi MiSummary.merge Metrics.mi
        (fun _ _ => rfl) rfl (fun _ => rfl) data _ hone]
      exact mi_merge_single o s v
    · intro a b c r0 r1 r2 r3 r4 r5 r6 r7 r8 r9 hone
      rw [summarize_one_generic MetricsSummary.abc AbcSummary.merge Metrics.abc
        (fun _ _ => rfl) rfl (fun _ => rfl) data _ hone]
      exact abc_merge_single a b c r0 r1 r2 r3 r4 r5 r6 r7 r8 r9

/-- C5: the claim as stated is false: a category present in exactly one
report does not always reproduce that report's values — a single nexits
report with `min = 5` yields a summary `min` of 0 (clamped by the
zero-initialized accumulator), not 5. -/
theorem C5_counterexample :
    (MetricsSummary.summarize [nexitsMin5Report]).nexits.map BasicSummary.min ≠ some 5 ∧
      (MetricsSummary.summarize [nexitsMin5Report]).nexits.map BasicSummary.min = some 0 := by
  constructor
  · intro h
    simp [MetricsSummary.summarize, fold_step, BasicSummary.merge, merge_with,
      BasicSummary.update, BasicSummary.add_count, BasicSummary.default, MetricsSummary.default,
      nexitsMin5Report, JsonData.ofMetrics, Metrics.empty] at h
  · simp [MetricsSummary.summarize, fold_step, BasicSummary.merge, merge_with,
      BasicSummary.update, BasicSummary.add_count, BasicSummary.default, MetricsSummary.default,
      nexitsMin5Report, JsonData.ofMetrics, Metrics.empty]

/-- A fully-populated basic record used by the C5 witness. -/
def fullBasic : BasicMetric := ⟨some 1, some 2, some 3, some 4⟩

/-- A report supplying nexits and mi, and nothing else. -/
def c5Report : JsonData :=
  JsonData.ofMetrics (some { Metrics.empty with
    nexits := some fullBasic, mi := some ⟨some 5, some 6, some 7⟩ })

/-- Witness for C5 (amended) at a concrete three-report collection: only
the middle report supplies nexits and mi (reproduced with count 1, modulo
the basic min/max clamps), and no report supplies loc, which stays
absent. -/
theorem C5_witness :
    (List.filterMap (fun d => d.metrics.bind Metrics.nexits)
        [JsonData.ofMetrics none, c5Report, noLocReport] =
      [⟨some 1, some 2, some 3, some 4⟩]) ∧
      (MetricsSummary.summarize [JsonData.ofMetrics none, c5Report, noLocReport]).nexits =
        some ⟨1, 2, Min.min 0 3, Max.max 0 4, 1⟩ ∧
      (MetricsSummary.summarize [JsonData.ofMetrics none, c5Report, noLocReport]).mi =
        some ⟨5, 6, 7, 1⟩ ∧
      (∀ d ∈ [JsonData.ofMetrics none, c5Report, noLocReport],
        d.metrics.bind Metrics.loc = none) ∧
      (MetricsSummary.summarize [JsonData.ofMetrics none, c5Report, noLocReport]).loc =
        none := by
  have hone : List.filterMap (fun d => d.metrics.bind Metrics.nexits)
      [JsonData.ofMetrics none, c5Report, noLocReport] =
      [⟨some 1, some 2, some 3, some 4⟩] := rfl
  have hmi : List.filterMap (fun d => d.metrics.bind Metrics.mi)
      [JsonData.ofMetrics none, c5Report, noLocReport] = [⟨some 5, some 6, some 7⟩] := rfl
  have hloc : ∀ d ∈ [JsonData.ofMetrics none, c5Report, noLocReport],
      d.metrics.bind Metrics.loc = none := by
    intro d hd
    rcases List.mem_cons.mp hd with h | h
    · subst h; rfl
    · rcases List.mem_cons.mp h with h2 | h2
      · subst h2; rfl
      · rcases List.mem_cons.mp h2 with h3 | h3
        · subst h3; rfl
        · exact absurd h3 (List.not_mem_nil d)
  refine ⟨hone, ?_, ?_, hloc, ?_⟩
  · exact (C5_amended_absence_and_single.2.2
      [JsonData.ofMetrics none, c5Report, noLocReport]).2.1 1 2 3 4 hone
  · exact (C5_amended_absence_and_single.2.2
      [JsonData.ofMetrics none, c5Report, noLocReport]).2.2.2.2.2.2.2.1 5 6 7 hmi
  · exact (C5_amended_absence_and_single.2.1
      [JsonData.ofMetrics none, c5Report, noLocReport]).2.2.2.2.2.1 hloc

/-! ## Counting (C6) -/

/-- `merge_with` advances the (optional) count by exactly 1 when the
metric is present and leaves it unchanged otherwise, provided the updater
does not touch the count, `add_count` bumps it by 1, and the default
count is 0. -/
theorem merge_with_count {T M : Type} (dflt : T) (ac : T → T) (u : T → M → T)
    (cnt : T → ℕ) (hac : ∀ t, cnt (ac t) = cnt t + 1) (hu : ∀ t m, cnt (u t m) = cnt t)
    (hd : cnt dflt = 0) (c : Option T) (metric : Option M) :
    (Option.map cnt (merge_with dflt ac u c metric)).getD 0 =
      (Option.map cnt c).getD 0 + (if metric.isSome = true then 1 else 0) := by
  cases metric with
  | none => simp [merge_with]
  | some m =>
    cases c with
    | none => simp [merge_with, hac, hu, hd]
    | some s => simp [merge_with, hac, hu]

/-- Folding a category merge counts exactly the records that supply the
category. -/
theorem foldl_count {S M A : Type} (mg : Option S → Option A → Option S) (cnt : S → ℕ)
    (sel : M → Option A)
    (hstep : ∀ c a, (Option.map cnt (mg c a)).getD 0 =
      (Option.map cnt c).getD 0 + (if a.isSome = true then 1 else 0)) :
    ∀ (ms : List M) (c : Option S),
      (Option.map cnt (ms.foldl (fun c2 m => mg c2 (sel m)) c)).getD 0 =
        (Option.map cnt c).getD 0 + (ms.filter (fun m => (sel m).isSome)).length := by
  intro ms
  induction ms with
  | nil => intro c; simp
  | cons m ms ih =>
    intro c
    rw [List.foldl_cons, ih (mg c (sel m)), hstep, List.filter_cons]
    cases h : (sel m).isSome <;> simp [h] <;> omega

/-- Filtering after a `filterMap` counts the same elements as filtering
the original list through the composite predicate. -/
theorem length_filter_filterMap {A B : Type} (f : A → Option B) (p : B → Bool) :
    ∀ (l : List A), ((l.filterMap f).filter p).length =
      (l.filter (fun a => ((f a).map p).getD false)).length := by
  intro l
  induction l with
  | nil => rfl
  | cons a l ih =>
    rw [List.filter_cons]
    cases hf : f a with
    | none => simpa [List.filterMap_cons_none hf, hf] using ih
    | some b =>
      rw [List.filterMap_cons_some hf, List.filter_cons]
      cases hp : p b <;> simp [hf, hp, ih]

/-- Presence of a bind equals the composite presence predicate. -/
theorem bind_isSome_eq {A B : Type} (o : Option A) (f : A → Option B) :
    (o.bind f).isSome = (o.map (fun a => (f a).isSome)).getD false := by
  cases o <;> rfl

/-- Generic per-category count law for `summarize`: the category's count
equals the number of reports supplying the category. -/
theorem summarize_count_generic {S A : Type} (proj : MetricsSummary → Option S)
    (mg : Option S → Option A → Option S) (cnt : S → ℕ) (sel : Metrics → Option A)
    (hproj : ∀ s m, proj (fold_step s m) = mg (proj s) (sel m))
    (hdef : proj MetricsSummary.default = none)
    (hstep : ∀ c a, (Option.map cnt (mg c a)).getD 0 =
      (Option.map cnt c).getD 0 + (if a.isSome = true then 1 else 0))
    (data : List JsonData) :
    (Option.map cnt (proj (MetricsSummary.summarize data))).getD 0 =
      (data.filter (fun d => (d.metrics.bind sel).isSome)).length := by
  unfold MetricsSummary.summarize
  rw [foldl_fold_step_proj proj (fun c m => mg c (sel m)) hproj, hdef,
    foldl_count mg cnt sel hstep, length_filter_filterMap JsonData.metrics
      (fun m => (sel m).isSome)]
  have hz : (Option.map cnt (none : Option S)).getD 0 = 0 := rfl
  rw [hz, Nat.zero_add]
  congr 1
  apply List.filter_congr
  intro d _
  rw [bind_isSome_eq]

/-- C6: per fold step, a category's count advances by exactly 1 when the
report supplies the category and the whole accumulator is untouched when
it does not; consequently, after any fold each category's count equals the
number of folded reports that supplied that category (so it never
decreases). -/
theorem C6_category_counts :
    (∀ (s : MetricsSummary) (m : Metrics),
      ((Option.map MetricValuesSummary.count (fold_step s m).nargs).getD 0 =
          (Option.map MetricValuesSummary.count s.nargs).getD 0 +
            (if m.nargs.isSome = true then 1 else 0)) ∧
        (m.nargs = none → (fold_step s m).nargs = s.nargs) ∧
      ((Option.map BasicSummary.count (fold_step s m).nexits).getD 0 =
          (Option.map BasicSummary.count s.nexits).getD 0 +
            (if m.nexits.isSome = true then 1 else 0)) ∧
        (m.nexits = none → (fold_step s m).nexits = s.nexits) ∧
      ((Option.map BasicSummary.count (fold_step s m).cognitive).getD 0 =
          (Option.map BasicSummary.count s.cognitive).getD 0 +
            (if m.cognitive.isSome = true then 1 else 0)) ∧
        (m.cognitive = none → (fold_step s m).cognitive = s.cognitive) ∧
      ((Option.map BasicSummary.count (fold_step s m).cyclomatic).getD 0 =
          (Option.map BasicSummary.count s.cyclomatic).getD 0 +
            (if m.cyclomatic.isSome = true then 1 else 0)) ∧
        (m.cyclomatic = none → (fold_step s m).cyclomatic = s.cyclomatic) ∧
      ((Option.map HalsteadSummary.count (fold_step s m).halstead).getD 0 =
          (Option.map HalsteadSummary.count s.halstead).getD 0 +
            (if m.halstead.isSome = true then 1 else 0)) ∧
        (m.halstead = none → (fold_step s m).halstead = s.halstead) ∧
      ((Option.map LocSummary.count (fold_step s m).loc).getD 0 =
          (Option.map LocSummary.count s.loc).getD 0 +
            (if m.loc.isSome = true then 1 else 0)) ∧
        (m.loc = none → (fold_step s m).loc = s.loc) ∧
      ((Option.map NomSummary.count (fold_step s m).nom).getD 0 =
          (Option.map NomSummary.count s.nom).getD 0 +
            (if m.nom.isSome = true then 1 else 0)) ∧
        (m.nom = none → (fold_step s m).nom = s.nom) ∧
      ((Option.map MiSummary.count (fold_step s m).mi).getD 0 =
          (Option.map MiSummary.count s.mi).getD 0 +
            (if m.mi.isSome = true then 1 else 0)) ∧
        (m.mi = none → (fold_step s m).mi = s.mi) ∧
      ((Option.map AbcSummary.count (fold_step s m).abc).getD 0 =
          (Option.map AbcSummary.count s.abc).getD 0 +
            (if m.abc.isSome = true then 1 else 0)) ∧
        (m.abc = none → (fold_step s m).abc = s.abc)) ∧
    (∀ data : List JsonData,
      ((Option.map MetricValuesSummary.count (MetricsSummary.summarize data).nargs).getD 0 =
        (data.filter (fun d => (d.metrics.bind Metrics.nargs).isSome)).length) ∧
      ((Option.map BasicSummary.count (MetricsSummary.summarize data).nexits).getD 0 =
        (data.filter (fun d => (d.metrics.bind Metrics.nexits).isSome)).length) ∧
      ((Option.map BasicSummary.count (MetricsSummary.summarize data).cognitive).getD 0 =
        (data.filter (fun d => (d.metrics.bind Metrics.cognitive).isSome)).length) ∧
      ((Option.map BasicSummary.count (MetricsSummary.summarize data).cyclomatic).getD 0 =
        (data.filter (fun d => (d.metrics.bind Metrics.cyclomatic).isSome)).length) ∧
      ((Option.map HalsteadSummary.count (MetricsSummary.summarize data).halstead).getD 0 =
        (data.filter (fun d => (d.metrics.bind Metrics.halstead).isSome)).length) ∧
      ((Option.map LocSummary.count (MetricsSummary.summarize data).loc).getD 0 =
        (data.filter (fun d => (d.metrics.bind Metrics.loc).isSome)).length) ∧
      ((Option.map NomSummary.count (MetricsSummary.summarize data).nom).getD 0 =
        (data.filter (fun d => (d.metrics.bind Metrics.nom).isSome)).length) ∧
      ((Option.map MiSummary.count (MetricsSummary.summarize data).mi).getD 0 =
        (data.filter (fun d => (d.metrics.bind Metrics.mi).isSome)).length) ∧
      ((Option.map AbcSummary.count (MetricsSummary.summarize data).abc).getD 0 =
        (data.filter (fun d => (d.metrics.bind Metrics.abc).isSome)).length)) := by
  have h1 : ∀ c a, (Option.map MetricValuesSummary.count
      (MetricValuesSummary.merge c a)).getD 0 =
      (Option.map MetricValuesSummary.count c).getD 0 + (if a.isSome = true then 1 else 0) :=
    merge_with_count _ _ _ MetricValuesSummary.count (fun _ => rfl) (fun _ _ => rfl) rfl
  have h2 : ∀ c a, (Option.map BasicSummary.count (BasicSummary.merge c a)).getD 0 =
      (Option.map BasicSummary.count c).getD 0 + (if a.isSome = true then 1 else 0) :=
    merge_with_count _ _ _ BasicSummary.count (fun _ => rfl) (fun _ _ => rfl) rfl
  have h3 : ∀ c a, (Option.map HalsteadSummary.count (HalsteadSummary.merge c a)).getD 0 =
      (Option.map HalsteadSummary.count c).getD 0 + (if a.isSome = true then 1 else 0) :=
    merge_with_count _ _ _ HalsteadSummary.count (fun _ => rfl) (fun _ _ => rfl) rfl
  have h4 : ∀ c a, (Option.map LocSummary.count (LocSummary.merge c a)).getD 0 =
      (Option.map LocSummary.count c).getD 0 + (if a.isSome = true then 1 else 0) :=
    merge_with_count _ _ _ LocSummary.count (fun _ => rfl) (fun _ _ => rfl) rfl
  have h5 : ∀ c a, (Option.map NomSummary.count (NomSummary.merge c a)).getD 0 =
      (Option.map NomSummary.count c).getD 0 + (if a.isSome = true then 1 else 0) :=
    merge_with_count _ _ _ NomSummary.count (fun _ => rfl) (fun _ _ => rfl) rfl
  have h6 : ∀ c a, (Option.map MiSummary.count (MiSummary.merge c a)).getD 0 =
      (Option.map MiSummary.count c).getD 0 + (if a.isSome = true then 1 else 0) :=
    merge_with_count _ _ _ MiSummary.count (fun _ => rfl) (fun _ _ => rfl) rfl
  have h7 : ∀ c a, (Option.map AbcSummary.count (AbcSummary.merge c a)).getD 0 =
      (Option.map AbcSummary.count c).getD 0 + (if a.isSome = true then 1 else 0) :=
    merge_with_count _ _ _ AbcSummary.count (fun _ => rfl) (fun _ _ => rfl) rfl
  constructor
  · intro s m
    refine ⟨h1 s.nargs m.nargs, ?_, h2 s.nexits m.nexits, ?_, h2 s.cognitive m.cognitive, ?_,
      h2 s.cyclomatic m.cyclomatic, ?_, h3 s.halstead m.halstead, ?_, h4 s.loc m.loc, ?_,
      h5 s.nom m.nom, ?_, h6 s.mi m.mi, ?_, h7 s.abc m.abc, ?_⟩ <;>
      (intro h; simp only [fold_step]; rw [h]; rfl)
  · intro data
    exact ⟨summarize_count_generic MetricsSummary.nargs MetricValuesSummary.merge
        MetricValuesSummary.count Metrics.nargs (fun _ _ => rfl) rfl h1 data,
      summarize_count_generic MetricsSummary.nexits BasicSummary.merge
        BasicSummary.count Metrics.nexits (fun _ _ => rfl) rfl h2 data,
      summarize_count_generic MetricsSummary.cognitive BasicSummary.merge
        BasicSummary.count Metrics.cognitive (fun _ _ => rfl) rfl h2 data,
      summarize_count_generic MetricsSummary.cyclomatic BasicSummary.merge
        BasicSummary.count Metrics.cyclomatic (fun _ _ => rfl) rfl h2 data,
      summarize_count_generic MetricsSummary.halstead HalsteadSummary.merge
        HalsteadSummary.count Metrics.halstead (fun _ _ => rfl) rfl h3 data,
      summarize_count_generic MetricsSummary.loc LocSummary.merge
        LocSummary.count Metrics.loc (fun _ _ => rfl) rfl h4 data,
      summarize_count_generic MetricsSummary.nom NomSummary.merge
        NomSummary.count Metrics.nom (fun _ _ => rfl) rfl h5 data,
      summarize_count_generic MetricsSummary.mi MiSummary.merge
        MiSummary.count Metrics.mi (fun _ _ => rfl) rfl h6 data,
      summarize_count_generic MetricsSummary.abc AbcSummary.merge
        AbcSummary.count Metrics.abc (fun _ _ => rfl) rfl h7 data⟩

/-- Witness for C6 at concrete inputs: a two-report list where one report
supplies LOC and the other does not gives a LOC count of 1, and a fold
step with an all-absent metrics record leaves the LOC accumulator
unchanged. -/
theorem C6_witness :
    ((Option.map LocSummary.count
        (MetricsSummary.summarize [slocReport 10, noLocReport]).loc).getD 0 = 1) ∧
      (Metrics.empty.loc = none ∧
        (fold_step MetricsSummary.default Metrics.empty).loc = MetricsSummary.default.loc) := by
  constructor
  · have h := (C6_category_counts.2 [slocReport 10, noLocReport]).2.2.2.2.2.1
    rw [h]
    rfl
  · exact ⟨rfl, (C6_category_counts.1 MetricsSummary.default Metrics.empty).2.2.2.2.2.2.2.2.2.2.2.1 rfl⟩

/-! ## Presence monotonicity (C7) -/

/-- Folding preserves any per-category presence invariant of the step. -/
theorem foldl_isSome_mono {S : Type} (proj : MetricsSummary → Option S)
    (hstep : ∀ s m, (proj s).isSome = true → (proj (fold_step s m)).isSome = true) :
    ∀ (ms : List Metrics) (s : MetricsSummary),
      (proj s).isSome = true → (proj (ms.foldl fold_step s)).isSome = true := by
  intro ms
  induction ms with
  | nil => intro s h; exact h
  | cons m ms ih => intro s h; exact ih _ (hstep s m h)

/-- C7: once a category's accumulator is present, it remains present after
every further fold step, whatever the later reports contain. -/
theorem C7_presence_monotone (ms : List Metrics) (s : MetricsSummary) :
    ((s.nargs.isSome = true → ((ms.foldl fold_step s).nargs).isSome = true) ∧
      (s.nexits.isSome = true → ((ms.foldl fold_step s).nexits).isSome = true) ∧
      (s.cognitive.isSome = true → ((ms.foldl fold_step s).cognitive).isSome = true) ∧
      (s.cyclomatic.isSome = true → ((ms.foldl fold_step s).cyclomatic).isSome = true) ∧
      (s.halstead.isSome = true → ((ms.foldl fold_step s).halstead).isSome = true) ∧
      (s.loc.isSome = true → ((ms.foldl fold_step s).loc).isSome = true) ∧
      (s.nom.isSome = true → ((ms.foldl fold_step s).nom).isSome = true) ∧
      (s.mi.isSome = true → ((ms.foldl fold_step s).mi).isSome = true) ∧
      (s.abc.isSome = true → ((ms.foldl fold_step s).abc).isSome = true)) :=
  ⟨foldl_isSome_mono MetricsSummary.nargs
      (fun s2 m h => merge_with_isSome_mono _ _ _ s2.nargs m.nargs h) ms s,
    foldl_isSome_mono MetricsSummary.nexits
      (fun s2 m h => merge_with_isSome_mono _ _ _ s2.nexits m.nexits h) ms s,
    foldl_isSome_mono MetricsSummary.cognitive
      (fun s2 m h => merge_with_isSome_mono _ _ _ s2.cognitive m.cognitive h) ms s,
    foldl_isSome_mono MetricsSummary.cyclomatic
      (fun s2 m h => merge_with_isSome_mono _ _ _ s2.cyclomatic m.cyclomatic h) ms s,
    foldl_isSome_mono MetricsSummary.halstead
      (fun s2 m h => merge_with_isSome_mono _ _ _ s2.halstead m.halstead h) ms s,
    foldl_isSome_mono MetricsSummary.loc
      (fun s2 m h => merge_with_isSome_mono _ _ _ s2.loc m.loc h) ms s,
    foldl_isSome_mono MetricsSummary.nom
      (fun s2 m h => merge_with_isSome_mono _ _ _ s2.nom m.nom h) ms s,
    foldl_isSome_mono MetricsSummary.mi
      (fun s2 m h => merge_with_isSome_mono _ _ _ s2.mi m.mi h) ms s,
    foldl_isSome_mono MetricsSummary.abc
      (fun s2 m h => merge_with_isSome_mono _ _ _ s2.abc m.abc h) ms s⟩

/-- Witness for C7: after folding in a LOC report, folding two further
reports without LOC (one with an all-absent metrics record) keeps the LOC
accumulator present. -/
theorem C7_witness :
    ((fold_step MetricsSummary.default { Metrics.empty with
        loc := some { Loc.empty with sloc := some 10 } }).loc).isSome = true ∧
      (([Metrics.empty, Metrics.empty].foldl fold_step
        (fold_step MetricsSummary.default { Metrics.empty with
          loc := some { Loc.empty with sloc := some 10 } })).loc).isSome = true := by
  constructor
  · rfl
  · exact (C7_presence_monotone [Metrics.empty, Metrics.empty]
      (fold_step MetricsSummary.default { Metrics.empty with
        loc := some { Loc.empty with sloc := some 10 } })).2.2.2.2.2.1 rfl

/-! ## Error handling and frame properties (C8, C9, C10) -/

/-- Dropping the failed entries of a `filterMap` changes nothing. -/
theorem filterMap_eq_filterMap_filter {A B : Type} (f : A → Option B) :
    ∀ l : List A, l.filterMap f = (l.filter (fun a => (f a).isSome)).filterMap f := by
  intro l
  induction l with
  | nil => rfl
  | cons a l ih =>
    cases hf : f a with
    | none => simp [List.filterMap_cons, List.filter_cons, hf, ih]
    | some b => simp [List.filterMap_cons, List.filter_cons, hf, ih]

/-- C8: `analyze_directory` fails exactly when the root is not a
directory; otherwise it returns the summary of precisely the successfully
read-and-parsed files, and the paths whose read or decode failed (their
`read_json_file` is `none`) are simply excluded from the fold. -/
theorem C8_analyze_errors (fs : FileSystem) (parse : String → Option JsonData)
    (path : String) :
    ((∃ e, analyze_directory fs parse path = Except.error e) ↔ fs.is_dir = false) ∧
      (fs.is_dir = true →
        analyze_directory fs parse path = Except.ok (MetricsSummary.summarize
          (fs.json_files.filterMap (read_json_file fs parse)))) ∧
      (fs.json_files.filterMap (read_json_file fs parse) =
        (fs.json_files.filter (fun p => (read_json_file fs parse p).isSome)).filterMap
          (read_json_file fs parse)) := by
  refine ⟨⟨?_, ?_⟩, ?_, ?_⟩
  · rintro ⟨e, he⟩
    cases hb : fs.is_dir with
    | false => rfl
    | true => simp [analyze_directory, hb] at he
  · intro h
    exact ⟨AppError.AnalysisError (path ++ " is not a directory"),
      by simp [analyze_directory, h]⟩
  · intro h
    simp [analyze_directory, h]
  · exact filterMap_eq_filterMap_filter (read_json_file fs parse) fs.json_files

/-- A concrete decoder for the C8 witness: only the content "good"
decodes. -/
def parse0 : String → Option JsonData :=
  fun s => if s = "good" then some (slocReport 10) else none

/-- A concrete file system for the C8 witness: the root is a directory,
`a.json` reads as "good", `b.json` is unreadable. -/
def fs0 : FileSystem :=
  ⟨true, ["a.json", "b.json"], fun p => if p = "a.json" then some "good" else none⟩

/-- Witness for C8: on the concrete file system the analysis succeeds and
folds exactly the one successfully parsed report. -/
theorem C8_witness :
    fs0.is_dir = true ∧
      analyze_directory fs0 parse0 "root" = Except.ok (MetricsSummary.summarize
        (fs0.json_files.filterMap (read_json_file fs0 parse0))) ∧
      fs0.json_files.filterMap (read_json_file fs0 parse0) = [slocReport 10] := by
  exact ⟨rfl, (C8_analyze_errors fs0 parse0 "root").2.1 rfl, rfl⟩

/-- C9: summarization cannot fail and has the all-absent summary as its
terminal state: the empty report list, and any list of reports carrying no
metrics record at all, summarize to the default summary in which every
category is absent. -/
theorem C9_empty_terminal :
    MetricsSummary.summarize [] = MetricsSummary.default ∧
      ∀ data : List JsonData, (∀ d ∈ data, d.metrics = none) →
        MetricsSummary.summarize data = MetricsSummary.default := by
  refine ⟨rfl, ?_⟩
  intro data h
  unfold MetricsSummary.summarize
  rw [List.filterMap_eq_nil_iff.mpr h]
  rfl

/-- Witness for C9 at two concrete metrics-free reports. -/
theorem C9_witness :
    (∀ d ∈ [JsonData.ofMetrics none, JsonData.ofMetrics none], d.metrics = none) ∧
      MetricsSummary.summarize [JsonData.ofMetrics none, JsonData.ofMetrics none] =
        MetricsSummary.default := by
  have h : ∀ d ∈ [JsonData.ofMetrics none, JsonData.ofMetrics none], d.metrics = none := by
    intro d hd
    rcases List.mem_cons.mp hd with h2 | h2
    · subst h2; rfl
    · rcases List.mem_cons.mp h2 with h3 | h3
      · subst h3; rfl
      · exact absurd h3 (List.not_mem_nil d)
  exact ⟨h, C9_empty_terminal.2 _ h⟩

/-- Erase the three decoded-but-not-summarized categories. -/
def erase_wnp (m : Metrics) : Metrics := { m with wmc := none, npm := none, npa := none }

/-- C10: the `wmc`, `npm` and `npa` categories of the parsed metrics have
no effect on `summarize` — erasing them from every report leaves the
summary (whose accumulators cover only the nine displayed categories)
unchanged. -/
theorem C10_wnp_no_effect (data : List JsonData) :
    MetricsSummary.summarize
        (data.map (fun d => { d with metrics := d.metrics.map erase_wnp })) =
      MetricsSummary.summarize data := by
  unfold MetricsSummary.summarize
  have h1 : (data.map (fun d => { d with metrics := d.metrics.map erase_wnp })).filterMap
      JsonData.metrics = (data.filterMap JsonData.metrics).map erase_wnp := by
    induction data with
    | nil => rfl
    | cons d data ih =>
      cases hd : d.metrics with
      | none => simp [List.filterMap_cons, hd, ih]
      | some m => simp [List.filterMap_cons, hd, ih]
  rw [h1, List.foldl_map]
  have h2 : (fun (s : MetricsSummary) (m : Metrics) => fold_step s (erase_wnp m)) =
      fold_step := by
    funext s m
    rfl
  rw [h2]
